import Mathlib

/-!
Verification of the Error Lifecycle Engine of the claude-code-web backend
(log monitor / classifier, fix orchestrator, event bus) against its
natural-language specification.

The Python services are shallowly embedded: the persistent store is a list of
error records, `datetime.utcnow()` values are integer seconds threaded as
explicit parameters, the uuid4 identifier is abstracted as a fresh counter,
and every regular expression of the source is implemented as an executable
character-list matcher with the same search semantics on the inputs the
source feeds it.  Database commits are modelled by recording the committed
store snapshots, since `get_session` commits once on normal exit and the
services also commit explicitly mid-operation.
-/

namespace CCW

/-! ## Event bus (src/backend/app/services/event_bus.py) -/

/-- EventType enumeration of the event bus (event_bus.py, class EventType). -/
inductive EventType where
  | STATUS_CHANGE
  | HEARTBEAT
  | REPO_CHANGE_DETECTED
  | REPO_POLL_ERROR
  | UPDATE_STARTED
  | UPDATE_COMPLETED
  | UPDATE_FAILED
  | UPDATE_ROLLED_BACK
  | ERROR_DETECTED
  | ERROR_RESOLVED
  | ERROR_IGNORED
  | FIX_STARTED
  | FIX_PROGRESS
  | FIX_COMPLETED
  | FIX_FAILED
  | FIX_ESCALATED
  deriving DecidableEq, Repr

/-- Values appearing in an event payload dictionary (opaque key/value map). -/
inductive PVal where
  | str (s : String)
  | nat (n : Nat)
  | bool (b : Bool)
  | list (l : List String)
  | null
  deriving DecidableEq, Repr

/-- Event object of the bus (event_bus.py, dataclass Event).  The timestamp
field is not modelled: no claim concerns it and it is set from the wall
clock at construction. -/
structure Event where
  type : EventType
  payload : List (String × PVal)
  source : String
  deriving DecidableEq, Repr

/-- Look up a key in an event payload (first binding wins, as in a dict). -/
def payloadGet (ev : Event) (key : String) : Option PVal :=
  (ev.payload.find? (fun kv => kv.fst == key)).map (·.snd)

/-- EventBus state: the bounded history ring and its size
(event_bus.py, EventBus.__init__).  Subscriber lists are not modelled:
handler dispatch never touches the history and no claim concerns it. -/
structure EventBus where
  historySize : Nat
  history : List Event
  deriving Repr

/-- EventBus.publish, history mechanics (event_bus.py lines 117-123):
append the event, then `if len > size: pop(0)` evicts exactly one oldest
entry. -/
def EventBus.publish (bus : EventBus) (e : Event) : EventBus :=
  let h := bus.history ++ [e]
  let h := if h.length > bus.historySize then h.drop 1 else h
  { bus with history := h }

/-- EventBus.get_history (event_bus.py lines 157-166): optional type filter,
then the Python slice `filtered[-limit:]`, which for limit = 0 is the whole
list. -/
def EventBus.get_history (bus : EventBus) (t : Option EventType) (limit : Nat) :
    List Event :=
  let f := match t with
    | some ty => bus.history.filter (fun e => e.type == ty)
    | none => bus.history
  if limit = 0 then f else f.drop (f.length - limit)

/-- A fresh bus with the given history size (default 100 in the source). -/
def EventBus.fresh (size : Nat) : EventBus := { historySize := size, history := [] }

/-- Publish a whole list of events in order. -/
def EventBus.publishAll (bus : EventBus) (events : List Event) : EventBus :=
  events.foldl EventBus.publish bus

/-! ## Retry configuration (src/backend/app/core/config.py, RetryConfig) -/

/-- RetryConfig (config.py lines 62-67).  The float multiplier is modelled as
a rational; for the values the system uses (small integer bases, multiplier
with a short binary expansion) Python float arithmetic is exact, so the
rational model is faithful. -/
structure RetryConfig where
  max_attempts : Nat
  base_delay_seconds : Nat
  multiplier : Rat
  max_delay_seconds : Nat
  deriving DecidableEq, Repr

/-- RetryConfig.get_delay (config.py lines 69-72):
`min(int(base * multiplier ** (attempt - 1)), max_delay_seconds)`.
With multiplier = num/den in lowest terms, base * multiplier^k is the
fraction (base * num^k) / den^k, and Python int() truncates toward zero,
which on a fraction with positive denominator is exactly Int.tdiv of
numerator by denominator. -/
def RetryConfig.get_delay (c : RetryConfig) (attempt : Nat) : Int :=
  min (((c.base_delay_seconds : Int) * c.multiplier.num ^ (attempt - 1)).tdiv
        ((c.multiplier.den : Int) ^ (attempt - 1)))
      (c.max_delay_seconds : Int)

/-- Default retry configuration (config.py field defaults). -/
def defaultRetry : RetryConfig :=
  { max_attempts := 5, base_delay_seconds := 60, multiplier := 2
    max_delay_seconds := 960 }

/-! ## Data model (src/backend/app/models/error.py) -/

/-- ErrorSeverity (error.py lines 20-25). -/
inductive ErrorSeverity where
  | CRITICAL | HIGH | MEDIUM | LOW
  deriving DecidableEq, Repr

/-- The `.value` string of a severity. -/
def ErrorSeverity.value : ErrorSeverity → String
  | .CRITICAL => "CRITICAL"
  | .HIGH => "HIGH"
  | .MEDIUM => "MEDIUM"
  | .LOW => "LOW"

/-- ErrorCategory (error.py lines 28-34). -/
inductive ErrorCategory where
  | PYTHON | DATABASE | ODOO | ASSET | DEPENDENCY
  deriving DecidableEq, Repr

/-- The `.value` string of a category. -/
def ErrorCategory.value : ErrorCategory → String
  | .PYTHON => "PYTHON"
  | .DATABASE => "DATABASE"
  | .ODOO => "ODOO"
  | .ASSET => "ASSET"
  | .DEPENDENCY => "DEPENDENCY"

/-- ErrorStatus (error.py lines 37-44). -/
inductive ErrorStatus where
  | DETECTED | QUEUED | FIXING | RESOLVED | FAILED | IGNORED
  deriving DecidableEq, Repr

/-- FixAttemptStatus (error.py lines 47-52). -/
inductive FixAttemptStatus where
  | IN_PROGRESS | SUCCESS | FAILED | TIMEOUT
  deriving DecidableEq, Repr

/-- FixAttempt row (error.py lines 125-160).  The autoincrement primary key
is not modelled (attempts live inside their owning error, mirroring the
cascade-owned `fix_attempts` relationship ordered by attempt_number);
fix_diff is never written by the services.  Timestamps are integer
seconds. -/
structure FixAttempt where
  error_id : Nat
  attempt_number : Nat
  status : FixAttemptStatus
  claude_prompt : Option String
  claude_response : Option String
  files_modified : Option (List String)
  error_after_fix : Option String
  execution_time_seconds : Option Rat
  started_at : Int
  completed_at : Option Int
  deriving DecidableEq, Repr

/-- Error row (error.py lines 55-114).  The uuid4 string id is abstracted as
a numeric identifier handed out by a fresh counter; context_after is never
written by the services. -/
structure ErrorRec where
  id : Nat
  error_type : String
  severity : ErrorSeverity
  category : ErrorCategory
  message : String
  stack_trace : Option String
  module_name : Option String
  file_path : Option String
  line_number : Option Nat
  context_before : List String
  raw_log : String
  status : ErrorStatus
  auto_fixable : Bool
  detected_at : Int
  resolved_at : Option Int
  ignored_at : Option Int
  ignored_by : Option String
  fix_attempts : List FixAttempt
  deriving DecidableEq, Repr

/-- Error.attempt_count (error.py lines 116-119). -/
def ErrorRec.attempt_count (e : ErrorRec) : Nat := e.fix_attempts.length

/-- Truncation `s[:n]` on a Python string. -/
def strTake (s : String) (n : Nat) : String := String.mk (s.toList.take n)

/-- Find the row with the given id (`select(Error).where(Error.id == eid)`,
first match in store order). -/
def findError (store : List ErrorRec) (eid : Nat) : Option ErrorRec :=
  store.find? (fun e => e.id == eid)

/-- Update the row with the given id in place (an ORM mutation followed by a
commit). -/
def updateError (store : List ErrorRec) (eid : Nat) (f : ErrorRec → ErrorRec) :
    List ErrorRec :=
  store.map (fun e => if e.id == eid then f e else e)

/-- The row matching `p` with the least detected_at, earliest in store order
on ties (`select(Error).where(p).order_by(Error.detected_at).limit(1)`). -/
def oldestWhere (p : ErrorRec → Bool) : List ErrorRec → Option ErrorRec
  | [] => none
  | e :: rest =>
    if p e then
      match oldestWhere p rest with
      | none => some e
      | some b => if b.detected_at < e.detected_at then some b else some e
    else oldestWhere p rest

/-! ## Fix orchestrator (src/backend/app/services/error_fixer.py) -/

/-- ClaudeResponse (error_fixer.py lines 66-76).  Fields the orchestrator
never reads (changes_made, reasoning, tokens_used) are dropped. -/
structure ClaudeResponse where
  success : Bool
  files_modified : List String
  execution_time_seconds : Rat
  raw_output : String
  error_message : Option String
  deriving DecidableEq, Repr

/-- VerificationResult (error_fixer.py lines 79-87), restricted to the
fields `_process_error` reads. -/
structure VerificationResult where
  fix_successful : Bool
  new_errors_introduced : List String
  deriving DecidableEq, Repr

/-- What the environment does to one agent invocation
(`_invoke_claude_code`): the subprocess returns a response, the hard
timeout expires (`asyncio.TimeoutError` is re-raised, error_fixer.py lines
431-432), or some other exception escapes into `_process_error`'s generic
handler. -/
inductive AgentResult where
  | response (cr : ClaudeResponse)
  | timeout
  | exn
  deriving DecidableEq, Repr

/-- In-memory state of ErrorFixerService plus the persistent store and the
stream of events the service has emitted on the bus. -/
structure FixerState where
  store : List ErrorRec
  currentFix : Option Nat
  events : List Event
  deriving DecidableEq, Repr

/-- ErrorFixerService._get_next_error (error_fixer.py lines 156-193): first
the oldest QUEUED auto-fixable error regardless of backoff; only when none
exists, the oldest DETECTED auto-fixable error, which is committed as
QUEUED.  Returns the chosen row id. -/
def getNextError (s : FixerState) : Option Nat × FixerState :=
  match oldestWhere (fun e => e.status == .QUEUED && e.auto_fixable) s.store with
  | some e => (some e.id, s)
  | none =>
    match oldestWhere (fun e => e.status == .DETECTED && e.auto_fixable) s.store with
    | some e =>
      (some e.id,
       { s with store := updateError s.store e.id (fun x => { x with status := .QUEUED }) })
    | none => (none, s)

/-- The backoff gate of `_process_error` (error_fixer.py lines 228-235):
with at least one prior attempt whose completed_at is set, the error is
skipped while `now - completed_at < get_delay(attempt_count)`. -/
def backoffBlocked (cfg : RetryConfig) (tStart : Int) (e : ErrorRec) : Bool :=
  if e.fix_attempts.length > 0 then
    match e.fix_attempts.getLast? with
    | some last =>
      match last.completed_at with
      | some c => decide ((tStart - c) < cfg.get_delay e.fix_attempts.length)
      | none => false
    | none => false
  else false

/-- Python `x or default` on the optional stderr reason string
(error_fixer.py line 331): None and the empty string both fall back. -/
def reasonOr (m : Option String) (dflt : String) : String :=
  match m with
  | some s => if s = "" then dflt else s
  | none => dflt

/-- The FixAttempt record created at the start of a try
(error_fixer.py lines 242-247). -/
def freshAttempt (eid : Nat) (n : Nat) (tStart : Int) : FixAttempt :=
  { error_id := eid, attempt_number := n
    status := .IN_PROGRESS, claude_prompt := none, claude_response := none
    files_modified := none, error_after_fix := none
    execution_time_seconds := none, started_at := tStart, completed_at := none }

/-- The FIX_STARTED event (error_fixer.py lines 251-259). -/
def evFixStarted (eid attempt maxAttempts : Nat) : Event :=
  { type := .FIX_STARTED
    payload := [("error_id", .nat eid), ("attempt", .nat attempt),
                ("max_attempts", .nat maxAttempts)]
    source := "error_fixer" }

/-- The FIX_COMPLETED event (error_fixer.py lines 286-294). -/
def evFixCompleted (eid attempt : Nat) (files : List String) : Event :=
  { type := .FIX_COMPLETED
    payload := [("error_id", .nat eid), ("attempt", .nat attempt),
                ("files_modified", .list files)]
    source := "error_fixer" }

/-- The FIX_FAILED event of the verification-failure branch
(error_fixer.py lines 306-315). -/
def evFixFailedVerification (eid attempt : Nat) (newErrors : List String) : Event :=
  { type := .FIX_FAILED
    payload := [("error_id", .nat eid), ("attempt", .nat attempt),
                ("reason", .str "verification_failed"),
                ("new_errors", .list newErrors)]
    source := "error_fixer" }

/-- The FIX_FAILED event of the invocation-failure and timeout branches
(error_fixer.py lines 326-334 and 347-355). -/
def evFixFailed (eid attempt : Nat) (reason : String) : Event :=
  { type := .FIX_FAILED
    payload := [("error_id", .nat eid), ("attempt", .nat attempt),
                ("reason", .str reason)]
    source := "error_fixer" }

/-- The FIX_ESCALATED event (error_fixer.py lines 211-219). -/
def evFixEscalated (eid : Nat) (error_type : String) (attempts : Nat) : Event :=
  { type := .FIX_ESCALATED
    payload := [("error_id", .nat eid), ("error_type", .str error_type),
                ("attempts", .nat attempts)]
    source := "error_fixer" }

/-- The attempt proper of ErrorFixerService._process_error
(error_fixer.py lines 237-377), entered once the escalation and backoff
gates have passed: create the IN_PROGRESS attempt and commit, emit
FIX_STARTED, run the try/except branches on the agent outcome, and in the
finally block stamp completed_at, clear the currently-fixing marker and
commit. -/
def processErrorRun (cfg : RetryConfig) (tStart tEnd : Int) (agent : AgentResult)
    (verif : VerificationResult) (prompt : String) (eid : Nat) (s : FixerState)
    (e : ErrorRec) : FixerState × List (List ErrorRec) :=
  let attemptCount := e.fix_attempts.length
  let newAttempt := freshAttempt eid (attemptCount + 1) tStart
  let store1 := updateError s.store eid
    (fun x => { x with status := .FIXING, fix_attempts := x.fix_attempts ++ [newAttempt] })
  let outcome : FixAttempt × ErrorStatus × Option Int × List Event :=
    match agent with
    | .timeout =>
      ({ newAttempt with status := .TIMEOUT }, .QUEUED, none,
       [evFixFailed eid (attemptCount + 1) "timeout"])
    | .exn =>
      ({ newAttempt with status := .FAILED }, .QUEUED, none, [])
    | .response cr =>
      let att0 : FixAttempt :=
        { newAttempt with
          claude_prompt := some prompt
          claude_response := some (strTake cr.raw_output 50000)
          files_modified := some cr.files_modified
          execution_time_seconds := some cr.execution_time_seconds }
      if cr.success then
        if verif.fix_successful then
          ({ att0 with status := .SUCCESS }, .RESOLVED, some tEnd,
           [evFixCompleted eid (attemptCount + 1) cr.files_modified])
        else
          ({ att0 with
             status := .FAILED
             error_after_fix := some (String.intercalate "\n" verif.new_errors_introduced) },
           .QUEUED, none,
           [evFixFailedVerification eid (attemptCount + 1) verif.new_errors_introduced])
      else
        ({ att0 with status := .FAILED }, .QUEUED, none,
         [evFixFailed eid (attemptCount + 1)
            (reasonOr cr.error_message "claude_invocation_failed")])
  let finalAttempt : FixAttempt := { outcome.fst with completed_at := some tEnd }
  let store2 := updateError store1 eid
    (fun x =>
      { x with
        status := outcome.snd.fst
        resolved_at := match outcome.snd.snd.fst with
          | some t => some t
          | none => x.resolved_at
        fix_attempts := x.fix_attempts.dropLast ++ [finalAttempt] })
  ({ store := store2, currentFix := none,
     events := s.events ++ [evFixStarted eid (attemptCount + 1) cfg.max_attempts]
               ++ outcome.snd.snd.snd }, [store1, store2])

/-- ErrorFixerService._process_error (error_fixer.py lines 195-377).
Arguments: tStart is utcnow at entry, tEnd utcnow in the finally block,
`agent` the outcome of the Claude invocation, `verif` the verification
result read when the invocation succeeded, `prompt` the generated prompt
(prompt generation reads the monitored source tree and is abstracted as an
input).  Returns the final state and the list of committed store snapshots
(the explicit commits at lines 209, 249 and 377). -/
def processError (cfg : RetryConfig) (tStart tEnd : Int) (agent : AgentResult)
    (verif : VerificationResult) (prompt : String) (eid : Nat) (s : FixerState) :
    FixerState × List (List ErrorRec) :=
  match findError s.store eid with
  | none => (s, [])
  | some e =>
    let attemptCount := e.fix_attempts.length
    if attemptCount ≥ cfg.max_attempts then
      let store1 := updateError s.store eid (fun x => { x with status := .FAILED })
      ({ s with
         store := store1
         events := s.events ++ [evFixEscalated eid e.error_type attemptCount] }, [store1])
    else if backoffBlocked cfg tStart e then
      (s, [])
    else
      processErrorRun cfg tStart tEnd agent verif prompt eid s e

/-- ErrorFixerService.ignore_error (error_fixer.py lines 665-688): any
existing error is unconditionally marked IGNORED with actor and timestamp
and ERROR_IGNORED is emitted; only a missing id returns false. -/
def ignoreError (now : Int) (eid : Nat) (ignored_by : String) (s : FixerState) :
    Bool × FixerState :=
  match findError s.store eid with
  | none => (false, s)
  | some _ =>
    let store1 := updateError s.store eid
      (fun x =>
        { x with
          status := .IGNORED
          ignored_at := some now
          ignored_by := some ignored_by })
    let ev : Event :=
      { type := .ERROR_IGNORED
        payload := [("error_id", .nat eid), ("ignored_by", .str ignored_by)]
        source := "error_fixer" }
    (true, { s with store := store1, events := s.events ++ [ev] })

/-- One fixing-loop iteration when work is available
(error_fixer.py lines 141-151): `_get_next_error` then `_process_error` on
the returned error. -/
structure PollInput where
  tStart : Int
  tEnd : Int
  agent : AgentResult
  verif : VerificationResult
  prompt : String

/-- One orchestrator poll: select, then process the selected error. -/
def pollOnce (cfg : RetryConfig) (inp : PollInput) (s : FixerState) :
    FixerState × List (List ErrorRec) :=
  match getNextError s with
  | (some eid, s1) => processError cfg inp.tStart inp.tEnd inp.agent inp.verif inp.prompt eid s1
  | (none, s1) => (s1, [])

/-- Run a sequence of polls, collecting all committed store snapshots. -/
def runPolls (cfg : RetryConfig) : List PollInput → FixerState → FixerState × List (List ErrorRec)
  | [], s => (s, [])
  | inp :: rest, s =>
    let r1 := pollOnce cfg inp s
    let r2 := runPolls cfg rest r1.fst
    (r2.fst, r1.snd ++ r2.snd)

/-! ## Log monitor / classifier (src/backend/app/services/error_detector.py)

The regular expressions of the source are implemented as executable
character-list matchers with `re.search` semantics (leftmost match wins, a
greedy `(.*)` never crosses a newline). -/

/-- The apostrophe character (the closing quote of
`ModuleNotFoundError: No module named '(.*)'`). -/
def chrQuote : Char := Char.ofNat 39

/-- Remainder of `s` after the first occurrence of `pat` (`re.search` on a
literal), or none.  All patterns fed to it are nonempty. -/
def dropAfterFirst (pat : List Char) : List Char → Option (List Char)
  | [] => none
  | c :: rest =>
    if List.isPrefixOf pat (c :: rest) then some ((c :: rest).drop pat.length)
    else dropAfterFirst pat rest

/-- Python `pat in s` on nonempty `pat`. -/
def containsSub (pat : String) (s : String) : Bool :=
  (dropAfterFirst pat.toList s.toList).isSome

/-- The prefix of `l` before the last occurrence of `q`, or none when `q`
does not occur (the greedy `(.*)` before a closing literal). -/
def lastBefore (q : Char) (l : List Char) : Option (List Char) :=
  match l.reverse.dropWhile (fun c => c ≠ q) with
  | [] => none
  | _ :: t => some t.reverse

/-- Search for the regex `pat(.*)'` (quotedCapture): at the leftmost
occurrence of the literal whose rest-of-line still holds a closing quote,
capture greedily up to that line's last quote. -/
def searchQuoted (pat : List Char) : List Char → Option (List Char)
  | [] => none
  | c :: rest =>
    if List.isPrefixOf pat (c :: rest) then
      let after := (c :: rest).drop pat.length
      match lastBefore chrQuote (after.takeWhile (fun ch => ch ≠ '\n')) with
      | some cap => some cap
      | none => searchQuoted pat rest
    else searchQuoted pat rest

/-- Whether `l` ends with `.js:` followed by one or more digits (the tail of
the JavaScriptError regex). -/
def jsSuffixOk (l : List Char) : Bool :=
  let r := l.reverse
  let ds := r.takeWhile (fun c => c.isDigit)
  decide (ds ≠ []) && List.isPrefixOf (String.toList ":sj.") (r.drop ds.length)

/-- The greedy capture of `(.*\.js:\d+)` on a single line: the longest
prefix of `l` that ends in `.js:` plus digits. -/
def longestJs (l : List Char) : Option (List Char) :=
  if jsSuffixOk l then some l
  else
    match l with
    | [] => none
    | c :: rest => longestJs ((c :: rest).dropLast)
termination_by l.length
decreasing_by simp [List.length_dropLast]

/-- Search for the regex `Error: (.*\.js:\d+)`. -/
def searchJs : List Char → Option (List Char)
  | [] => none
  | c :: rest =>
    if List.isPrefixOf (String.toList "Error: ") (c :: rest) then
      match longestJs (((c :: rest).drop 7).takeWhile (fun ch => ch ≠ '\n')) with
      | some cap => some cap
      | none => searchJs rest
    else searchJs rest

/-- The shapes of regex appearing in ERROR_PATTERNS
(error_detector.py lines 31-159). -/
inductive Matcher where
  | simpleCapture (pre : String)
  | quotedCapture (pre : String)
  | jsCapture
  deriving DecidableEq, Repr

/-- `pattern.search(full_text)` with the extracted `match.group(1)`. -/
def Matcher.search (m : Matcher) (text : String) : Option String :=
  match m with
  | .simpleCapture pre =>
    (dropAfterFirst pre.toList text.toList).map
      (fun r => String.mk (r.takeWhile (fun ch => ch ≠ '\n')))
  | .quotedCapture pre => (searchQuoted pre.toList text.toList).map String.mk
  | .jsCapture => (searchJs text.toList).map String.mk

/-- ERROR_PATTERNS (error_detector.py lines 31-159), in declaration order:
error_type, matcher, category, severity, auto_fixable. -/
def ERROR_PATTERNS : List (String × Matcher × ErrorCategory × ErrorSeverity × Bool) :=
  [ ("ImportError", .simpleCapture "ImportError: ", .PYTHON, .HIGH, true),
    ("ModuleNotFoundError",
      .quotedCapture "ModuleNotFoundError: No module named '", .DEPENDENCY, .HIGH, true),
    ("SyntaxError", .simpleCapture "SyntaxError: ", .PYTHON, .CRITICAL, true),
    ("AttributeError", .simpleCapture "AttributeError: ", .PYTHON, .HIGH, true),
    ("TypeError", .simpleCapture "TypeError: ", .PYTHON, .HIGH, true),
    ("ValueError", .simpleCapture "ValueError: ", .PYTHON, .MEDIUM, true),
    ("KeyError", .simpleCapture "KeyError: ", .PYTHON, .MEDIUM, true),
    ("NameError", .simpleCapture "NameError: ", .PYTHON, .HIGH, true),
    ("IndentationError", .simpleCapture "IndentationError: ", .PYTHON, .CRITICAL, true),
    ("psycopg2.OperationalError",
      .simpleCapture "psycopg2.OperationalError: ", .DATABASE, .CRITICAL, false),
    ("psycopg2.IntegrityError",
      .simpleCapture "psycopg2.IntegrityError: ", .DATABASE, .HIGH, false),
    ("psycopg2.ProgrammingError",
      .simpleCapture "psycopg2.ProgrammingError: ", .DATABASE, .HIGH, true),
    ("ValidationError",
      .simpleCapture "odoo.exceptions.ValidationError: ", .ODOO, .MEDIUM, true),
    ("UserError", .simpleCapture "odoo.exceptions.UserError: ", .ODOO, .LOW, false),
    ("AccessError", .simpleCapture "odoo.exceptions.AccessError: ", .ODOO, .MEDIUM, false),
    ("MissingError", .simpleCapture "odoo.exceptions.MissingError: ", .ODOO, .MEDIUM, true),
    ("ParseError", .simpleCapture "odoo.tools.convert.ParseError: ", .ODOO, .HIGH, true),
    ("JavaScriptError", .jsCapture, .ASSET, .MEDIUM, true),
    ("SCSSCompilation", .simpleCapture "Error compiling scss: ", .ASSET, .MEDIUM, true),
    ("AssetError", .simpleCapture "AssetError: ", .ASSET, .MEDIUM, true) ]

/-- Consume exactly `n` characters satisfying `p` (a counted class like
`\d{4}`). -/
def expectN (p : Char → Bool) : Nat → List Char → Option (List Char)
  | 0, l => some l
  | _ + 1, [] => none
  | n + 1, c :: rest => if p c then expectN p n rest else none

/-- Consume one expected literal character. -/
def expectC (c : Char) : List Char → Option (List Char)
  | [] => none
  | d :: rest => if d = c then some rest else none

/-- ERROR_START_PATTERN (error_detector.py lines 172-174), `re.match`
anchored at the line start:
a `YYYY-MM-DD hh:mm:ss,mmm pid` stamp followed by ERROR, CRITICAL or
WARNING. -/
def matchErrorStart (line : String) : Bool :=
  let step : Option (List Char) := do
    let l0 := line.toList
    let l1 ← expectN Char.isDigit 4 l0
    let l2 ← expectC '-' l1
    let l3 ← expectN Char.isDigit 2 l2
    let l4 ← expectC '-' l3
    let l5 ← expectN Char.isDigit 2 l4
    let l6 ← expectC ' ' l5
    let l7 ← expectN Char.isDigit 2 l6
    let l8 ← expectC ':' l7
    let l9 ← expectN Char.isDigit 2 l8
    let l10 ← expectC ':' l9
    let l11 ← expectN Char.isDigit 2 l10
    let l12 ← expectC ',' l11
    let l13 ← expectN Char.isDigit 3 l12
    let l14 ← expectC ' ' l13
    let ds := l14.takeWhile (fun c => c.isDigit)
    if ds = [] then none else expectC ' ' (l14.drop ds.length)
  match step with
  | none => false
  | some rest =>
    List.isPrefixOf (String.toList "ERROR") rest
      || List.isPrefixOf (String.toList "CRITICAL") rest
      || List.isPrefixOf (String.toList "WARNING") rest

/-- Numeric value of a digit run. -/
def natOfDigits (ds : List Char) : Nat :=
  ds.foldl (fun a c => a * 10 + (c.toNat - 48)) 0

/-- One anchored match of TRACEBACK_FILE_PATTERN
(`File "([^"]+)", line (\d+)`, error_detector.py lines 162-164): the file
path, the line number and the number of characters consumed. -/
def frameAt (l : List Char) : Option (String × Nat × Nat) := do
  let pre := String.toList "File \""
  if List.isPrefixOf pre l then
    let l1 := l.drop pre.length
    let path := l1.takeWhile (fun c => c ≠ '"')
    if path = [] then none
    else
      let l2 := l1.drop path.length
      let mid := String.toList "\", line "
      if List.isPrefixOf mid l2 then
        let l3 := l2.drop mid.length
        let ds := l3.takeWhile (fun c => c.isDigit)
        if ds = [] then none
        else some (String.mk path, natOfDigits ds,
                   pre.length + path.length + mid.length + ds.length)
      else none
  else none

/-- `TRACEBACK_FILE_PATTERN.findall`: leftmost, non-overlapping.  The fuel
argument (initialised to the text length) only certifies termination: every
step consumes at least one character. -/
def findFramesAux : Nat → List Char → List (String × Nat)
  | 0, _ => []
  | _ + 1, [] => []
  | fuel + 1, c :: rest =>
    match frameAt (c :: rest) with
    | some (fp, ln, k) => (fp, ln) :: findFramesAux fuel ((c :: rest).drop (max k 1))
    | none => findFramesAux fuel rest

/-- All stack-frame matches in a text. -/
def findFrames (l : List Char) : List (String × Nat) := findFramesAux l.length l

/-- ErrorDetectorService._extract_location (error_detector.py lines
441-448): the last frame match. -/
def extractLocation (log_text : String) : Option String × Option Nat :=
  match (findFrames log_text.toList).getLast? with
  | some (fp, ln) => (some fp, some ln)
  | none => (none, none)

/-- An anchored match of MODULE_PATH_PATTERN
(`/(?:custom_)?addons/([^/]+)/`, error_detector.py lines 167-169). -/
def moduleAt (l : List Char) : Option String :=
  let tryPre : String → Option String := fun pre =>
    if List.isPrefixOf pre.toList l then
      let after := l.drop pre.length
      let seg := after.takeWhile (fun c => c ≠ '/')
      if decide (seg ≠ []) && List.isPrefixOf ['/'] (after.drop seg.length) then
        some (String.mk seg)
      else none
    else none
  match tryPre "/custom_addons/" with
  | some m => some m
  | none => tryPre "/addons/"

/-- MODULE_PATH_PATTERN.search: leftmost match. -/
def searchModule : List Char → Option String
  | [] => none
  | c :: rest =>
    match moduleAt (c :: rest) with
    | some m => some m
    | none => searchModule rest

/-- ErrorDetectorService._extract_module_name (error_detector.py lines
450-455). -/
def extractModuleName (log_text : String) : Option String :=
  searchModule log_text.toList

/-- Python `text.split(sep)` for a one-character separator, on the tail of
the text with the reversed current segment as accumulator. -/
def splitLinesAux : List Char → List Char → List String
  | [], acc => [String.mk acc.reverse]
  | c :: rest, acc =>
    if c = '\n' then String.mk acc.reverse :: splitLinesAux rest []
    else splitLinesAux rest (c :: acc)

/-- Python `text.split("\n")` (empty segments kept). -/
def splitLines (s : String) : List String := splitLinesAux s.toList []

/-- ErrorDetectorService._extract_stack_trace (error_detector.py lines
457-470): all lines from the first one containing "Traceback" onwards. -/
def extractStackTrace (log_text : String) : Option String :=
  if containsSub "Traceback" log_text then
    some (String.intercalate "\n"
      ((splitLines log_text).dropWhile (fun ln => !(containsSub "Traceback" ln))))
  else none

/-- In-memory state of ErrorDetectorService plus the persistent store and
the events it has emitted.  The tail offset `_last_position` is owned by
the poll loop, which is not needed by any claim and is not modelled. -/
structure DetectorState where
  store : List ErrorRec
  events : List Event
  contextBuffer : List String
  running : Bool
  nextId : Nat
  deriving Repr

/-- `self._context_size` (error_detector.py line 205). -/
def contextSize : Nat := 10

/-- ErrorDetectorService._is_duplicate_error (error_detector.py lines
472-496): same error_type, detected within the last minute, in a
non-terminal status; the module filter is added only when a module name
was extracted (the `message` argument is accepted and ignored, as in the
source). -/
def isDuplicateError (now : Int) (store : List ErrorRec) (error_type : String)
    (message : String) (module_name : Option String) : Bool :=
  let cutoff := now - 60
  store.any (fun e =>
    e.error_type == error_type
      && decide (e.detected_at > cutoff)
      && (e.status == .DETECTED || e.status == .QUEUED || e.status == .FIXING)
      && (match module_name with
          | some m => e.module_name == some m
          | none => true))

/-- ErrorDetectorService._create_error (error_detector.py lines 366-439):
extract location, module and stack trace from the raw block, suppress when
a recent duplicate exists, otherwise persist the row and emit
ERROR_DETECTED with the truncated payload. -/
def createError (now : Int) (error_type : String) (category : ErrorCategory)
    (severity : ErrorSeverity) (auto_fixable : Bool) (message : String)
    (raw_log : String) (context_before : List String) (s : DetectorState) :
    DetectorState × Option ErrorRec :=
  let loc := extractLocation raw_log
  let module_name := extractModuleName raw_log
  let stack_trace := extractStackTrace raw_log
  if isDuplicateError now s.store error_type message module_name then (s, none)
  else
    let err : ErrorRec :=
      { id := s.nextId, error_type := error_type, severity := severity
        category := category, message := strTake message 2000
        stack_trace := stack_trace, module_name := module_name
        file_path := loc.fst, line_number := loc.snd
        context_before := context_before, raw_log := strTake raw_log 10000
        status := .DETECTED, auto_fixable := auto_fixable, detected_at := now
        resolved_at := none, ignored_at := none, ignored_by := none
        fix_attempts := [] }
    let ev : Event :=
      { type := .ERROR_DETECTED
        payload := [("error_id", .nat s.nextId), ("error_type", .str error_type),
                    ("severity", .str severity.value), ("category", .str category.value),
                    ("module", match module_name with | some m => .str m | none => .null),
                    ("auto_fixable", .bool auto_fixable),
                    ("message", .str (strTake message 200))]
        source := "error_detector" }
    ({ s with
       store := s.store ++ [err]
       events := s.events ++ [ev]
       nextId := s.nextId + 1 }, some err)

/-- The last `n` entries of a buffer (`buf[-n:]`). -/
def lastN (l : List String) (n : Nat) : List String := l.drop (l.length - n)

/-- ErrorDetectorService._process_error_block (error_detector.py lines
332-364): first matching table entry wins; otherwise the generic
UnknownError fallback when the first line holds ERROR or CRITICAL. -/
def firstPattern (text : String) :
    List (String × Matcher × ErrorCategory × ErrorSeverity × Bool) →
    Option (String × String × ErrorCategory × ErrorSeverity × Bool)
  | [] => none
  | (ty, m, cat, sev, af) :: rest =>
    match m.search text with
    | some cap => some (ty, cap, cat, sev, af)
    | none => firstPattern text rest

/-- Process one assembled error block. -/
def processErrorBlock (now : Int) (lines : List String) (s : DetectorState) :
    DetectorState :=
  match lines with
  | [] => s
  | l0 :: _ =>
    let full_text := String.intercalate "\n" lines
    match firstPattern full_text ERROR_PATTERNS with
    | some (ty, cap, cat, sev, af) =>
      (createError now ty cat sev af cap full_text (lastN s.contextBuffer contextSize) s).fst
    | none =>
      if containsSub "ERROR" l0 || containsSub "CRITICAL" l0 then
        (createError now "UnknownError" .PYTHON .HIGH true (strTake l0 500) full_text
          (lastN s.contextBuffer contextSize) s).fst
      else s

/-- Python `not line.strip()`. -/
def isBlank (line : String) : Bool := line.toList.all (fun c => c.isWhitespace)

/-- Whether a line continues an open error block: indented or holding a
traceback marker (error_detector.py line 320). -/
def continuesBlock (line : String) : Bool :=
  (match line.toList with
   | c :: _ => c == ' ' || c == '\t'
   | [] => false) || containsSub "Traceback" line

/-- Append a line to the rolling context buffer (error_detector.py lines
307-309): cap at twice the context size, evicting the oldest line. -/
def pushContext (line : String) (s : DetectorState) : DetectorState :=
  let b := s.contextBuffer ++ [line]
  let b := if b.length > contextSize * 2 then b.drop 1 else b
  { s with contextBuffer := b }

/-- The line loop of ErrorDetectorService._process_log_content
(error_detector.py lines 296-330), carried state: remaining lines, the
open block, the in_error_block flag. -/
def processLines (now : Int) : List String → List String → Bool → DetectorState → DetectorState
  | [], block, inBlock, s =>
    if inBlock && decide (block ≠ []) then processErrorBlock now block s else s
  | line :: rest, block, inBlock, s =>
    if isBlank line then processLines now rest block inBlock s
    else
      let s1 := pushContext line s
      if matchErrorStart line then
        let s2 := if inBlock && decide (block ≠ []) then processErrorBlock now block s1 else s1
        processLines now rest [line] true s2
      else if inBlock then
        if continuesBlock line then processLines now rest (block ++ [line]) true s1
        else processLines now rest [] false (processErrorBlock now block s1)
      else processLines now rest block inBlock s1

/-- ErrorDetectorService._process_log_content on a chunk of new content. -/
def processLogContent (now : Int) (content : String) (s : DetectorState) : DetectorState :=
  processLines now (splitLines content) [] false s

/-- Insert into a detected_at-descending list. -/
def insertDesc (e : ErrorRec) : List ErrorRec → List ErrorRec
  | [] => [e]
  | x :: xs => if e.detected_at ≥ x.detected_at then e :: x :: xs else x :: insertDesc e xs

/-- `order_by(Error.detected_at.desc())`. -/
def sortByDetectedDesc (l : List ErrorRec) : List ErrorRec := l.foldr insertDesc []

/-- ErrorDetectorService.scan_log_file (error_detector.py lines 498-536):
none stands for a missing log file; otherwise `_running` is saved and set
to False for the duration of the scan (the source comment reads "Disable
event emission during scan"), the whole content is processed, the flag is
restored, and the most recent rows are queried back.  Returns the new
state and the query result. -/
def scanLogFile (content : Option String) (now : Int) (since : Option Int)
    (limit : Nat) (s : DetectorState) : DetectorState × List ErrorRec :=
  match content with
  | none => (s, [])
  | some text =>
    let original := s.running
    let s1 := processLogContent now text { s with running := false }
    let s2 := { s1 with running := original }
    let rows := match since with
      | some t => s2.store.filter (fun e => decide (e.detected_at ≥ t))
      | none => s2.store
    (s2, (sortByDetectedDesc rows).take limit)

/-! ## Invariants and concrete fixtures -/

/-- Number of IN_PROGRESS attempts of one error. -/
def inProgressCount (e : ErrorRec) : Nat :=
  (e.fix_attempts.filter (fun a => a.status == FixAttemptStatus.IN_PROGRESS)).length

/-- The attempt numbers of an error are exactly 1..k, in order. -/
def attemptNumbersOk (e : ErrorRec) : Prop :=
  e.fix_attempts.map (fun a => a.attempt_number) = List.range' 1 e.fix_attempts.length

/-- Store invariant that must hold in every committed snapshot: gap-free
attempt numbering and at most one IN_PROGRESS attempt per error. -/
def StoreInv (store : List ErrorRec) : Prop :=
  ∀ e ∈ store, attemptNumbersOk e ∧ inProgressCount e ≤ 1

/-- Store invariant between polls: gap-free numbering and every attempt
closed. -/
def QuiescentStore (store : List ErrorRec) : Prop :=
  ∀ e ∈ store, attemptNumbersOk e ∧ inProgressCount e = 0

/-- Row ids are pairwise distinct (the primary-key constraint). -/
def UniqueIds (store : List ErrorRec) : Prop :=
  (store.map (fun e => e.id)).Nodup

/-- The ways a fix attempt ends in failure: hard timeout, an unexpected
exception, a failed agent invocation, or a successful invocation whose
verification fails. -/
def failureOutcome (agent : AgentResult) (verif : VerificationResult) : Prop :=
  agent = .timeout ∨ agent = .exn
    ∨ (∃ cr, agent = .response cr
        ∧ (cr.success = false ∨ verif.fix_successful = false))

/-- A representative detected error used by the concrete scenarios. -/
def baseError : ErrorRec :=
  { id := 0, error_type := "ImportError", severity := .HIGH, category := .PYTHON
    message := "No module named x", stack_trace := none, module_name := none
    file_path := none, line_number := none, context_before := []
    raw_log := "", status := .DETECTED, auto_fixable := true, detected_at := 0
    resolved_at := none, ignored_at := none, ignored_by := none, fix_attempts := [] }

/-- A closed failed attempt with the given number and completion time. -/
def closedAttempt (n : Nat) (c : Int) : FixAttempt :=
  { error_id := 0, attempt_number := n, status := .FAILED, claude_prompt := none
    claude_response := none, files_modified := none, error_after_fix := none
    execution_time_seconds := none, started_at := c, completed_at := some c }

/-- A successful agent response with empty output. -/
def okResponse : ClaudeResponse :=
  { success := true, files_modified := [], execution_time_seconds := 0
    raw_output := "", error_message := none }

/-- A verification that failed without collecting new errors. -/
def verifFailed : VerificationResult :=
  { fix_successful := false, new_errors_introduced := [] }

/-- A fixer store holding one RESOLVED error. -/
def resolvedState : FixerState :=
  { store := [{ baseError with status := .RESOLVED, resolved_at := some 1 }]
    currentFix := none, events := [] }

/-- A fixer store holding a QUEUED error whose backoff has not elapsed at
time 10 (one attempt completed at time 0, delay(1) = 60) next to an older
auto-fixable DETECTED error. -/
def blockedQueueState : FixerState :=
  { store := [{ baseError with status := .QUEUED, fix_attempts := [closedAttempt 1 0] },
              { baseError with id := 1, detected_at := -10 }]
    currentFix := none, events := [] }

/-- A fixer store holding a QUEUED error with four long-completed failed
attempts (one below the default cap of five). -/
def nearCapState : FixerState :=
  { store := [{ baseError with
                status := .QUEUED
                fix_attempts := [closedAttempt 1 (-10000), closedAttempt 2 (-9000),
                                 closedAttempt 3 (-8000), closedAttempt 4 (-7000)] }]
    currentFix := none, events := [] }

/-- A fixer store holding a QUEUED error with five recorded attempts (at
the default cap). -/
def atCapState : FixerState :=
  { store := [{ baseError with
                status := .QUEUED
                fix_attempts := [closedAttempt 1 (-10000), closedAttempt 2 (-9000),
                                 closedAttempt 3 (-8000), closedAttempt 4 (-7000),
                                 closedAttempt 5 (-6000)] }]
    currentFix := none, events := [] }

/-- A poll input at time 10 whose agent reports success but whose
verification fails. -/
def verifFailInput : PollInput :=
  { tStart := 10, tEnd := 11, agent := .response okResponse
    verif := verifFailed, prompt := "" }

/-- An empty detector state with the monitor marked running. -/
def emptyDetector : DetectorState :=
  { store := [], events := [], contextBuffer := [], running := true, nextId := 0 }

/-- A single-line log whose only line opens an error block and classifies
as ImportError. -/
def scanSample : String :=
  "2024-01-01 10:00:00,123 456 ERROR ImportError: No module named x"

/-! ## Helper lemmas -/

/-- Finding an id after updating it applies the update to the found row. -/
theorem findError_updateError (store : List ErrorRec) (eid : Nat)
    (f : ErrorRec → ErrorRec) (hf : ∀ e, (f e).id = e.id) :
    findError (updateError store eid f) eid = (findError store eid).map f := by
  induction store with
  | nil => rfl
  | cons e rest ih =>
    by_cases h : e.id = eid
    · simp [updateError, findError, List.find?, h, hf]
    · simp only [updateError, findError, List.map_cons] at *
      rw [if_neg (by simpa using h)]
      rw [List.find?_cons_of_neg _ (by simpa using h),
          List.find?_cons_of_neg _ (by simpa using h)]
      exact ih

/-- A found row is a member with the looked-up id. -/
theorem findError_spec {store : List ErrorRec} {eid : Nat} {e : ErrorRec}
    (h : findError store eid = some e) : e ∈ store ∧ e.id = eid := by
  refine ⟨List.mem_of_find?_eq_some h, ?_⟩
  have := List.find?_some h
  simpa using this

/-- An id-preserving update leaves the id column unchanged. -/
theorem updateError_map_id (store : List ErrorRec) (eid : Nat)
    (f : ErrorRec → ErrorRec) (hf : ∀ e, (f e).id = e.id) :
    (updateError store eid f).map (fun e => e.id) = store.map (fun e => e.id) := by
  unfold updateError
  rw [List.map_map]
  apply List.map_congr_left
  intro x _
  by_cases h : x.id = eid
  · simp [Function.comp, h, hf]
  · simp [Function.comp, h]

/-- Two id-preserving updates of the same row compose. -/
theorem updateError_updateError (store : List ErrorRec) (eid : Nat)
    (f g : ErrorRec → ErrorRec) (hf : ∀ e, (f e).id = e.id) :
    updateError (updateError store eid f) eid g
      = updateError store eid (fun e => g (f e)) := by
  unfold updateError
  rw [List.map_map]
  apply List.map_congr_left
  intro x _
  by_cases h : x.id = eid
  · simp [Function.comp, h, hf]
  · simp [Function.comp, h]

/-- Membership in an updated store. -/
theorem mem_updateError {x : ErrorRec} {store : List ErrorRec} {eid : Nat}
    {f : ErrorRec → ErrorRec} (h : x ∈ updateError store eid f) :
    (∃ y ∈ store, y.id = eid ∧ x = f y) ∨ x ∈ store := by
  rcases List.mem_map.mp h with ⟨y, hy, hxy⟩
  by_cases hid : y.id = eid
  · left
    refine ⟨y, hy, hid, ?_⟩
    rw [← hxy, if_pos (by simpa using hid)]
  · right
    rw [← hxy, if_neg (by simpa using hid)]
    exact hy

/-- In a store with distinct ids, a member sharing the id of a found row is
that row. -/
theorem eq_of_mem_of_id_eq {store : List ErrorRec} {y e : ErrorRec}
    (hnd : UniqueIds store) (hy : y ∈ store) (he : e ∈ store)
    (hid : y.id = e.id) : y = e :=
  List.inj_on_of_nodup_map hnd hy he hid

/-- Finding a row after the attempt-create and attempt-close updates of
one _process_error call yields the composed update of the row found
before. -/
theorem findError_double_update {store : List ErrorRec} {eid : Nat}
    {e : ErrorRec} {f g : ErrorRec → ErrorRec}
    (h : findError store eid = some e)
    (hf : ∀ x, (f x).id = x.id) (hg : ∀ x, (g x).id = x.id) :
    findError (updateError (updateError store eid f) eid g) eid
      = some (g (f e)) := by
  rw [updateError_updateError _ _ _ _ hf,
      findError_updateError _ _ _ (fun x => by rw [hg, hf]), h]
  rfl

/-- A store on which oldestWhere finds nothing has no matching row. -/
theorem oldestWhere_eq_none_iff (p : ErrorRec → Bool) (l : List ErrorRec) :
    oldestWhere p l = none ↔ ∀ x ∈ l, p x = false := by
  induction l with
  | nil => simp [oldestWhere]
  | cons a rest ih =>
    by_cases hp : p a
    · cases hr : oldestWhere p rest with
      | none => simp [oldestWhere, hp, hr]
      | some b =>
        constructor
        · intro h
          exfalso
          by_cases hlt : b.detected_at < a.detected_at <;>
            simp [oldestWhere, hp, hr, hlt] at h
        · intro h
          rw [h a (by simp)] at hp
          exact absurd hp (by simp)
    · have hp2 : p a = false := by simpa using hp
      simp [oldestWhere, hp2, ih]

/-- The row found by oldestWhere matches the filter and has minimal
detected_at among the matching rows. -/
theorem oldestWhere_spec (p : ErrorRec → Bool) (l : List ErrorRec) (e : ErrorRec)
    (h : oldestWhere p l = some e) :
    e ∈ l ∧ p e = true
      ∧ ∀ x ∈ l, p x = true → e.detected_at ≤ x.detected_at := by
  induction l generalizing e with
  | nil => exact absurd h (by simp [oldestWhere])
  | cons a rest ih =>
    by_cases hp : p a
    · cases hr : oldestWhere p rest with
      | none =>
        rw [oldestWhere, if_pos hp, hr] at h
        obtain rfl := Option.some_inj.mp h
        have hnone := (oldestWhere_eq_none_iff p rest).mp hr
        refine ⟨by simp, hp, ?_⟩
        intro x hx hpx
        rcases List.mem_cons.mp hx with rfl | hx2
        · exact le_refl _
        · rw [hnone x hx2] at hpx
          exact absurd hpx (by simp)
      | some b =>
        obtain ⟨hbmem, hbp, hbmin⟩ := ih b hr
        rw [oldestWhere, if_pos hp, hr] at h
        dsimp only at h
        by_cases hlt : b.detected_at < a.detected_at
        · rw [if_pos hlt] at h
          obtain rfl := Option.some_inj.mp h
          refine ⟨List.mem_cons_of_mem a hbmem, hbp, ?_⟩
          intro x hx hpx
          rcases List.mem_cons.mp hx with rfl | hx2
          · exact le_of_lt hlt
          · exact hbmin x hx2 hpx
        · rw [if_neg hlt] at h
          obtain rfl := Option.some_inj.mp h
          refine ⟨by simp, hp, ?_⟩
          intro x hx hpx
          rcases List.mem_cons.mp hx with rfl | hx2
          · exact le_refl _
          · exact le_trans (not_lt.mp hlt) (hbmin x hx2 hpx)
    · have hp2 : p a = false := by simpa using hp
      rw [oldestWhere, if_neg hp] at h
      obtain ⟨hmem, hep, hmin⟩ := ih e h
      refine ⟨List.mem_cons_of_mem a hmem, hep, ?_⟩
      intro x hx hpx
      rcases List.mem_cons.mp hx with rfl | hx2
      · rw [hp2] at hpx
        exact absurd hpx (by simp)
      · exact hmin x hx2 hpx

/-- oldestWhere finds a row as soon as one matches. -/
theorem oldestWhere_isSome (p : ErrorRec → Bool) (l : List ErrorRec)
    (h : ∃ x ∈ l, p x = true) : ∃ e, oldestWhere p l = some e := by
  cases hr : oldestWhere p l with
  | none =>
    obtain ⟨x, hx, hpx⟩ := h
    rw [(oldestWhere_eq_none_iff p l).mp hr x hx] at hpx
    exact absurd hpx (by simp)
  | some e => exact ⟨e, rfl⟩

/-- The escalation gate of _process_error: at the attempt cap the error is
failed, FIX_ESCALATED is emitted and no attempt is created. -/
theorem processError_escalates {cfg : RetryConfig} {tS tE : Int}
    {agent : AgentResult} {verif : VerificationResult} {prompt : String}
    {eid : Nat} {s : FixerState} {e : ErrorRec}
    (h : findError s.store eid = some e)
    (hge : e.fix_attempts.length ≥ cfg.max_attempts) :
    processError cfg tS tE agent verif prompt eid s
      = ({ s with
           store := updateError s.store eid (fun x => { x with status := .FAILED })
           events := s.events
             ++ [evFixEscalated eid e.error_type e.fix_attempts.length] },
         [updateError s.store eid (fun x => { x with status := .FAILED })]) := by
  simp only [processError, h]
  rw [if_pos hge]

/-- The backoff gate of _process_error: a blocked error is skipped with no
commit. -/
theorem processError_blocked {cfg : RetryConfig} {tS tE : Int}
    {agent : AgentResult} {verif : VerificationResult} {prompt : String}
    {eid : Nat} {s : FixerState} {e : ErrorRec}
    (h : findError s.store eid = some e)
    (hlt : e.fix_attempts.length < cfg.max_attempts)
    (hb : backoffBlocked cfg tS e = true) :
    processError cfg tS tE agent verif prompt eid s = (s, []) := by
  simp only [processError, h]
  rw [if_neg (not_le.mpr hlt), if_pos hb]

/-- Past both gates, _process_error performs the attempt. -/
theorem processError_eq_run {cfg : RetryConfig} {tS tE : Int}
    {agent : AgentResult} {verif : VerificationResult} {prompt : String}
    {eid : Nat} {s : FixerState} {e : ErrorRec}
    (h : findError s.store eid = some e)
    (hlt : e.fix_attempts.length < cfg.max_attempts)
    (hb : backoffBlocked cfg tS e = false) :
    processError cfg tS tE agent verif prompt eid s
      = processErrorRun cfg tS tE agent verif prompt eid s e := by
  simp only [processError, h]
  rw [if_neg (not_le.mpr hlt), if_neg (by simp [hb])]

/-- Appending a correctly numbered attempt keeps the numbering gap-free. -/
theorem attemptNumbersOk_append {atts : List FixAttempt} {att : FixAttempt}
    (h : atts.map (fun a => a.attempt_number) = List.range' 1 atts.length)
    (hn : att.attempt_number = atts.length + 1) :
    (atts ++ [att]).map (fun a => a.attempt_number)
      = List.range' 1 (atts ++ [att]).length := by
  rw [List.map_append, h]
  simp [List.range'_concat, hn, Nat.add_comm]

/-- A quiescent store satisfies the snapshot invariant. -/
theorem StoreInv_of_Quiescent {store : List ErrorRec} (h : QuiescentStore store) :
    StoreInv store := by
  intro e he
  obtain ⟨h1, h2⟩ := h e he
  exact ⟨h1, by omega⟩

/-- A status-only update (one that never touches fix_attempts) preserves
quiescence. -/
theorem quiescent_updateError {store : List ErrorRec} {eid : Nat}
    {f : ErrorRec → ErrorRec} (hf : ∀ x, (f x).fix_attempts = x.fix_attempts)
    (h : QuiescentStore store) : QuiescentStore (updateError store eid f) := by
  intro x hx
  rcases mem_updateError hx with ⟨y, hy, _, rfl⟩ | hx2
  · obtain ⟨h1, h2⟩ := h y hy
    constructor
    · unfold attemptNumbersOk at h1 ⊢
      rw [hf]
      exact h1
    · unfold inProgressCount at h2 ⊢
      rw [hf]
      exact h2
  · exact h x hx2

/-- An id-preserving update preserves id uniqueness. -/
theorem uniqueIds_updateError {store : List ErrorRec} {eid : Nat}
    {f : ErrorRec → ErrorRec} (hf : ∀ x, (f x).id = x.id)
    (h : UniqueIds store) : UniqueIds (updateError store eid f) := by
  unfold UniqueIds at h ⊢
  rw [updateError_map_id _ _ _ hf]
  exact h

/-- The two committed updates of one attempt cycle — append an IN_PROGRESS
attempt numbered prior+1, then close that attempt — keep the snapshot
invariant at the first commit and restore quiescence at the second. -/
theorem attempt_cycle_inv {store : List ErrorRec} {eid : Nat} {e : ErrorRec}
    (h : findError store eid = some e) (hq : QuiescentStore store)
    (hu : UniqueIds store) (att attF : FixAttempt) (σ : ErrorStatus)
    (ρ : ErrorRec → Option Int)
    (hnum : att.attempt_number = e.fix_attempts.length + 1)
    (hnumF : attF.attempt_number = e.fix_attempts.length + 1)
    (hstF : attF.status ≠ .IN_PROGRESS) :
    StoreInv (updateError store eid
        (fun x => { x with status := .FIXING, fix_attempts := x.fix_attempts ++ [att] }))
      ∧ QuiescentStore (updateError
          (updateError store eid
            (fun x => { x with status := .FIXING, fix_attempts := x.fix_attempts ++ [att] }))
          eid
          (fun x =>
            { x with
              status := σ
              resolved_at := ρ x
              fix_attempts := x.fix_attempts.dropLast ++ [attF] }))
      ∧ UniqueIds (updateError
          (updateError store eid
            (fun x => { x with status := .FIXING, fix_attempts := x.fix_attempts ++ [att] }))
          eid
          (fun x =>
            { x with
              status := σ
              resolved_at := ρ x
              fix_attempts := x.fix_attempts.dropLast ++ [attF] })) := by
  obtain ⟨hemem, heid⟩ := findError_spec h
  have huniq : ∀ y ∈ store, y.id = eid → y = e := fun y hy hyid =>
    eq_of_mem_of_id_eq hu hy hemem (by rw [hyid, heid])
  have hq_e := hq e hemem
  refine ⟨?_, ?_, ?_⟩
  · intro x hx
    rcases mem_updateError hx with ⟨y, hy, hyid, rfl⟩ | hx2
    · obtain rfl := huniq y hy hyid
      constructor
      · show (y.fix_attempts ++ [att]).map (fun a => a.attempt_number)
            = List.range' 1 (y.fix_attempts ++ [att]).length
        exact attemptNumbersOk_append (hq y hy).1 hnum
      · show (List.filter (fun a => a.status == FixAttemptStatus.IN_PROGRESS)
            (y.fix_attempts ++ [att])).length ≤ 1
        rw [List.filter_append, List.length_append]
        have h0 : (List.filter (fun a => a.status == FixAttemptStatus.IN_PROGRESS)
            y.fix_attempts).length = 0 := (hq y hy).2
        have h1 : (List.filter (fun a => a.status == FixAttemptStatus.IN_PROGRESS)
            [att]).length ≤ 1 := List.length_filter_le _ _
        omega
    · exact StoreInv_of_Quiescent hq x hx2
  · rw [updateError_updateError _ _ _ _ (by intro x; rfl)]
    intro x hx
    rcases mem_updateError hx with ⟨y, hy, hyid, rfl⟩ | hx2
    · obtain rfl := huniq y hy hyid
      constructor
      · show ((y.fix_attempts ++ [att]).dropLast ++ [attF]).map (fun a => a.attempt_number)
            = List.range' 1 ((y.fix_attempts ++ [att]).dropLast ++ [attF]).length
        rw [List.dropLast_concat]
        exact attemptNumbersOk_append (hq y hy).1 hnumF
      · show (List.filter (fun a => a.status == FixAttemptStatus.IN_PROGRESS)
            ((y.fix_attempts ++ [att]).dropLast ++ [attF])).length = 0
        rw [List.dropLast_concat, List.filter_append, List.length_append]
        have h0 : (List.filter (fun a => a.status == FixAttemptStatus.IN_PROGRESS)
            y.fix_attempts).length = 0 := (hq y hy).2
        have h1 : (List.filter (fun a => a.status == FixAttemptStatus.IN_PROGRESS)
            [attF]).length = 0 := by
          have hb2 : (attF.status == FixAttemptStatus.IN_PROGRESS) = false := by
            simpa using hstF
          simp [List.filter, hb2]
        omega
    · exact hq x hx2
  · exact uniqueIds_updateError (by intro x; rfl)
      (uniqueIds_updateError (by intro x; rfl) hu)

/-- Selection preserves quiescence and id uniqueness: it only flips a
status to QUEUED. -/
theorem getNextError_inv (s : FixerState) (hq : QuiescentStore s.store)
    (hu : UniqueIds s.store) :
    QuiescentStore (getNextError s).snd.store
      ∧ UniqueIds (getNextError s).snd.store := by
  unfold getNextError
  cases oldestWhere (fun e => e.status == .QUEUED && e.auto_fixable) s.store with
  | some e => exact ⟨hq, hu⟩
  | none =>
    cases oldestWhere (fun e => e.status == .DETECTED && e.auto_fixable) s.store with
    | some e =>
      exact ⟨quiescent_updateError (by intro x; rfl) hq,
        uniqueIds_updateError (by intro x; rfl) hu⟩
    | none => exact ⟨hq, hu⟩

/-- One _process_error call started from a quiescent store with unique ids
leaves a quiescent store with unique ids, and every committed snapshot
satisfies the snapshot invariant. -/
theorem processError_inv (cfg : RetryConfig) (tS tE : Int) (agent : AgentResult)
    (verif : VerificationResult) (prompt : String) (eid : Nat) (s : FixerState)
    (hq : QuiescentStore s.store) (hu : UniqueIds s.store) :
    QuiescentStore (processError cfg tS tE agent verif prompt eid s).fst.store
      ∧ UniqueIds (processError cfg tS tE agent verif prompt eid s).fst.store
      ∧ ∀ st ∈ (processError cfg tS tE agent verif prompt eid s).snd, StoreInv st := by
  cases h : findError s.store eid with
  | none =>
    simp only [processError, h]
    exact ⟨hq, hu, by simp⟩
  | some e =>
    by_cases hge : e.fix_attempts.length ≥ cfg.max_attempts
    · rw [processError_escalates h hge]
      refine ⟨quiescent_updateError (by intro x; rfl) hq,
        uniqueIds_updateError (by intro x; rfl) hu, ?_⟩
      intro st hst
      rw [List.mem_singleton.mp hst]
      exact StoreInv_of_Quiescent (quiescent_updateError (by intro x; rfl) hq)
    · have hlt := not_le.mp hge
      by_cases hbb : backoffBlocked cfg tS e = true
      · rw [processError_blocked h hlt hbb]
        exact ⟨hq, hu, by simp⟩
      · rw [processError_eq_run h hlt (by simpa using hbb)]
        cases agent with
        | timeout =>
          simp only [processErrorRun]
          obtain ⟨hI, hQ, hU⟩ := attempt_cycle_inv h hq hu
            (freshAttempt eid (e.fix_attempts.length + 1) tS)
            { freshAttempt eid (e.fix_attempts.length + 1) tS with
              status := .TIMEOUT, completed_at := some tE }
            .QUEUED (fun x => x.resolved_at) rfl rfl (by simp)
          refine ⟨hQ, hU, ?_⟩
          intro st hst
          simp only [List.mem_cons, List.mem_singleton] at hst
          rcases hst with rfl | rfl | hc
          · exact hI
          · exact StoreInv_of_Quiescent hQ
          · exact absurd hc (by simp)
        | exn =>
          simp only [processErrorRun]
          obtain ⟨hI, hQ, hU⟩ := attempt_cycle_inv h hq hu
            (freshAttempt eid (e.fix_attempts.length + 1) tS)
            { freshAttempt eid (e.fix_attempts.length + 1) tS with
              status := .FAILED, completed_at := some tE }
            .QUEUED (fun x => x.resolved_at) rfl rfl (by simp)
          refine ⟨hQ, hU, ?_⟩
          intro st hst
          simp only [List.mem_cons, List.mem_singleton] at hst
          rcases hst with rfl | rfl | hc
          · exact hI
          · exact StoreInv_of_Quiescent hQ
          · exact absurd hc (by simp)
        | response cr =>
          by_cases hs : cr.success = true
          · by_cases hv : verif.fix_successful = true
            · simp only [processErrorRun, hs, hv, if_true]
              obtain ⟨hI, hQ, hU⟩ := attempt_cycle_inv h hq hu
                (freshAttempt eid (e.fix_attempts.length + 1) tS)
                { freshAttempt eid (e.fix_attempts.length + 1) tS with
                  status := .SUCCESS
                  claude_prompt := some prompt
                  claude_response := some (strTake cr.raw_output 50000)
                  files_modified := some cr.files_modified
                  execution_time_seconds := some cr.execution_time_seconds
                  completed_at := some tE }
                .RESOLVED (fun _ => some tE) rfl rfl (by simp)
              refine ⟨hQ, hU, ?_⟩
              intro st hst
              simp only [List.mem_cons, List.mem_singleton] at hst
              rcases hst with rfl | rfl | hc
              · exact hI
              · exact StoreInv_of_Quiescent hQ
              · exact absurd hc (by simp)
            · have hv2 : verif.fix_successful = false := by simpa using hv
              simp only [processErrorRun, hs, hv2, if_true, Bool.false_eq_true,
                if_false]
              obtain ⟨hI, hQ, hU⟩ := attempt_cycle_inv h hq hu
                (freshAttempt eid (e.fix_attempts.length + 1) tS)
                { freshAttempt eid (e.fix_attempts.length + 1) tS with
                  status := .FAILED
                  claude_prompt := some prompt
                  claude_response := some (strTake cr.raw_output 50000)
                  files_modified := some cr.files_modified
                  execution_time_seconds := some cr.execution_time_seconds
                  error_after_fix :=
                    some (String.intercalate "\n" verif.new_errors_introduced)
                  completed_at := some tE }
                .QUEUED (fun x => x.resolved_at) rfl rfl (by simp)
              refine ⟨hQ, hU, ?_⟩
              intro st hst
              simp only [List.mem_cons, List.mem_singleton] at hst
              rcases hst with rfl | rfl | hc
              · exact hI
              · exact StoreInv_of_Quiescent hQ
              · exact absurd hc (by simp)
          · have hs2 : cr.success = false := by simpa using hs
            simp only [processErrorRun, hs2, Bool.false_eq_true, if_false]
            obtain ⟨hI, hQ, hU⟩ := attempt_cycle_inv h hq hu
              (freshAttempt eid (e.fix_attempts.length + 1) tS)
              { freshAttempt eid (e.fix_attempts.length + 1) tS with
                status := .FAILED
                claude_prompt := some prompt
                claude_response := some (strTake cr.raw_output 50000)
                files_modified := some cr.files_modified
                execution_time_seconds := some cr.execution_time_seconds
                completed_at := some tE }
              .QUEUED (fun x => x.resolved_at) rfl rfl (by simp)
            refine ⟨hQ, hU, ?_⟩
            intro st hst
            simp only [List.mem_cons, List.mem_singleton] at hst
            rcases hst with rfl | rfl | hc
            · exact hI
            · exact StoreInv_of_Quiescent hQ
            · exact absurd hc (by simp)

/-- One orchestrator poll preserves the between-polls invariant and keeps
every committed snapshot within the snapshot invariant. -/
theorem pollOnce_inv (cfg : RetryConfig) (inp : PollInput) (s : FixerState)
    (hq : QuiescentStore s.store) (hu : UniqueIds s.store) :
    QuiescentStore (pollOnce cfg inp s).fst.store
      ∧ UniqueIds (pollOnce cfg inp s).fst.store
      ∧ ∀ st ∈ (pollOnce cfg inp s).snd, StoreInv st := by
  obtain ⟨hq1, hu1⟩ := getNextError_inv s hq hu
  rcases hgn : getNextError s with ⟨o, s1⟩
  rw [hgn] at hq1 hu1
  cases o with
  | some eid =>
    simp only [pollOnce, hgn]
    exact processError_inv cfg inp.tStart inp.tEnd inp.agent inp.verif inp.prompt
      eid s1 hq1 hu1
  | none =>
    simp only [pollOnce, hgn]
    exact ⟨hq1, hu1, by simp⟩

/-- The event-bus history after a burst of publishes, relative to any
starting bus whose history respects the bound. -/
theorem publishAll_history (events : List Event) :
    ∀ bus : EventBus, bus.history.length ≤ bus.historySize →
      (bus.publishAll events).historySize = bus.historySize
        ∧ (bus.publishAll events).history
          = (bus.history ++ events).drop
              ((bus.history ++ events).length - bus.historySize)
        ∧ (bus.publishAll events).history.length ≤ bus.historySize := by
  induction events with
  | nil =>
    intro bus h
    refine ⟨rfl, ?_, by simpa [EventBus.publishAll] using h⟩
    have hz : bus.history.length - bus.historySize = 0 := by omega
    simp [EventBus.publishAll, hz]
  | cons e es ih =>
    intro bus h
    have hfold : bus.publishAll (e :: es) = (bus.publish e).publishAll es := rfl
    have hsz : (bus.publish e).historySize = bus.historySize := rfl
    have hif : (bus.publish e).history
        = if (bus.history ++ [e]).length > bus.historySize
          then (bus.history ++ [e]).drop 1 else bus.history ++ [e] := rfl
    have harr : bus.history ++ e :: es = (bus.history ++ [e]) ++ es := by simp
    by_cases hlen : (bus.history ++ [e]).length > bus.historySize
    · have hlen2 : bus.history.length = bus.historySize := by
        simp only [List.length_append, List.length_cons, List.length_nil] at hlen
        omega
      have hhist : (bus.publish e).history = (bus.history ++ [e]).drop 1 := by
        rw [hif, if_pos hlen]
      have hdlen : (bus.publish e).history.length = bus.historySize := by
        rw [hhist]
        simp [hlen2]
      obtain ⟨h1, h2, h3⟩ := ih (bus.publish e) (by rw [hdlen, hsz])
      refine ⟨?_, ?_, ?_⟩
      · show ((bus.publish e).publishAll es).historySize = bus.historySize
        rw [h1, hsz]
      · show ((bus.publish e).publishAll es).history
          = (bus.history ++ e :: es).drop
              ((bus.history ++ e :: es).length - bus.historySize)
        rw [h2, hsz, hhist,
            ← List.drop_append_of_le_length
              (show (1 : Nat) ≤ (bus.history ++ [e]).length by simp),
            List.drop_drop, harr]
        congr 1
        simp only [List.length_append, List.length_drop, List.length_cons,
          List.length_nil]
        omega
      · show ((bus.publish e).publishAll es).history.length ≤ bus.historySize
        exact h3.trans (le_of_eq hsz)
    · have hhist : (bus.publish e).history = bus.history ++ [e] := by
        rw [hif, if_neg hlen]
      have hble : (bus.publish e).history.length ≤ (bus.publish e).historySize := by
        rw [hhist, hsz]
        simp only [not_lt] at hlen
        exact hlen
      obtain ⟨h1, h2, h3⟩ := ih (bus.publish e) hble
      refine ⟨?_, ?_, ?_⟩
      · show ((bus.publish e).publishAll es).historySize = bus.historySize
        rw [h1, hsz]
      · show ((bus.publish e).publishAll es).history
          = (bus.history ++ e :: es).drop
              ((bus.history ++ e :: es).length - bus.historySize)
        rw [h2, hsz, hhist, harr]
      · show ((bus.publish e).publishAll es).history.length ≤ bus.historySize
        exact h3.trans (le_of_eq hsz)

/-! ## Claims -/

/-- C7: after any sequence of publishes starting from a fresh bus, the
history holds at most history_size events and is exactly the most recent
suffix of the published sequence in publish order (oldest evicted first),
and that suffix is what get_history returns; in particular 150 events at
size 100 leave the most recent 100. -/
theorem eventBus_history_bounded_suffix (size : Nat) (events : List Event) :
    ((EventBus.fresh size).publishAll events).history
        = events.drop (events.length - size)
      ∧ ((EventBus.fresh size).publishAll events).history.length ≤ size
      ∧ ((EventBus.fresh size).publishAll events).get_history none size
        = events.drop (events.length - size) := by
  obtain ⟨h1, h2, h3⟩ :=
    publishAll_history events (EventBus.fresh size) (by simp [EventBus.fresh])
  have hh : ((EventBus.fresh size).publishAll events).history
      = events.drop (events.length - size) := by
    simpa [EventBus.fresh] using h2
  have hlen : ((EventBus.fresh size).publishAll events).history.length ≤ size := by
    simpa [EventBus.fresh] using h3
  refine ⟨hh, hlen, ?_⟩
  simp only [EventBus.get_history]
  by_cases hz : size = 0
  · rw [if_pos hz]
    exact hh
  · rw [if_neg hz]
    have hz2 : ((EventBus.fresh size).publishAll events).history.length - size = 0 := by
      omega
    rw [hz2, List.drop_zero]
    exact hh

/-- C5 counterexample: for the admissible configuration base=10,
multiplier=1.5, max=960 and attempt 3 the code returns
int(10 * 1.5^2) = 22, while the claimed formula yields the non-integer
22.5, so the claim's general equation fails. -/
theorem get_delay_truncates_cex :
    ((⟨3, 2, by decide, by decide⟩ : Rat) = 3 / 2)
      ∧ RetryConfig.get_delay
          { max_attempts := 5, base_delay_seconds := 10
            multiplier := (⟨3, 2, by decide, by decide⟩ : Rat)
            max_delay_seconds := 960 } 3 = 22
      ∧ min ((10 : Rat) * ((3 : Rat) / 2) ^ (3 - 1)) ((960 : Rat)) = 45 / 2
      ∧ ((22 : Rat) ≠ 45 / 2) := by
  refine ⟨by norm_num [Rat.mk'_eq_divInt, Rat.divInt_eq_div], by decide,
    by norm_num [min_def], by norm_num⟩

/-- C5 amended: get_delay returns the minimum of the truncated product
int(base * multiplier^(n-1)) and max_delay; whenever the product is an
integer — in particular for the default configuration — this coincides
with the claimed min(base * multiplier^(n-1), max_delay), and the default
table 60/120/240/480/960 (capped) holds. -/
theorem get_delay_spec :
    (∀ (ma b mx k n : Nat) (m : Rat), 1 ≤ n → (b : Rat) * m ^ (n - 1) = (k : Rat) →
        RetryConfig.get_delay ⟨ma, b, m, mx⟩ n = min (k : Int) (mx : Int))
      ∧ defaultRetry.get_delay 1 = 60 ∧ defaultRetry.get_delay 2 = 120
      ∧ defaultRetry.get_delay 3 = 240 ∧ defaultRetry.get_delay 4 = 480
      ∧ defaultRetry.get_delay 5 = 960 := by
  constructor
  · intro ma b mx k n m hn hk
    have hden0 : ((m.den : Rat)) ≠ 0 := Nat.cast_ne_zero.mpr m.den_nz
    have hm : (m.num : Rat) = m * (m.den : Rat) :=
      (div_eq_iff hden0).mp (Rat.num_div_den m)
    have hq : (b : Rat) * (m.num : Rat) ^ (n - 1)
        = (k : Rat) * ((m.den : Rat)) ^ (n - 1) := by
      calc (b : Rat) * (m.num : Rat) ^ (n - 1)
          = (b : Rat) * (m ^ (n - 1) * ((m.den : Rat)) ^ (n - 1)) := by
            rw [hm, mul_pow]
        _ = ((b : Rat) * m ^ (n - 1)) * ((m.den : Rat)) ^ (n - 1) := by ring
        _ = (k : Rat) * ((m.den : Rat)) ^ (n - 1) := by rw [hk]
    have hcross : (b : Int) * m.num ^ (n - 1)
        = (k : Int) * (m.den : Int) ^ (n - 1) := by
      exact_mod_cast hq
    have hden : ((m.den : Int)) ^ (n - 1) ≠ 0 :=
      pow_ne_zero _ (by exact_mod_cast m.den_nz)
    simp only [RetryConfig.get_delay]
    rw [hcross, Int.mul_tdiv_cancel _ hden]
  · exact ⟨by decide, by decide, by decide, by decide, by decide⟩

/-- C5 witness: the general part of the amended claim evaluated at the
default configuration, attempt 3. -/
theorem get_delay_spec_witness :
    RetryConfig.get_delay ⟨5, 60, 2, 960⟩ 3 = min (240 : Int) (960 : Int) :=
  get_delay_spec.1 5 60 960 240 3 2 (by norm_num) (by norm_num)

/-- C1 (code bug): scan_log_file saves the running flag and sets it to
False with the comment "Disable event emission during scan", but
_create_error never consults the flag before publishing, so a one-shot
bulk scan of a log holding one fresh ImportError block still publishes an
ERROR_DETECTED event during the scan: emission is not suppressed. -/
theorem scan_log_file_emits_during_scan :
    (processLogContent 100 scanSample { emptyDetector with running := false }).events.map
        (fun e => e.type) = [EventType.ERROR_DETECTED]
      ∧ (scanLogFile (some scanSample) 100 none 100 emptyDetector).fst.events.map
          (fun e => e.type) = [EventType.ERROR_DETECTED]
      ∧ (scanLogFile (some scanSample) 100 none 100 emptyDetector).fst.store.length = 1 := by
  refine ⟨by decide, by decide, by decide⟩

/-- C2 counterexample: ignore_error on an Error whose status is the
terminal RESOLVED returns true and mutates the record to IGNORED, where
the claim requires false and no change. -/
theorem ignore_error_resolved_cex :
    (ignoreError 7 0 "admin" resolvedState).fst = true
      ∧ (findError (ignoreError 7 0 "admin" resolvedState).snd.store 0).map
          (fun e => e.status) = some ErrorStatus.IGNORED := by
  refine ⟨by decide, by decide⟩

/-- C2 amended: ignore_error returns true and transitions the Error to
IGNORED (recording the actor and an ignored_at timestamp, and emitting
ERROR_IGNORED) exactly when an Error with that id exists, regardless of
its current status — including the terminal RESOLVED, FAILED and IGNORED;
it returns false, leaving the state unchanged, only when no such Error
exists. -/
theorem ignore_error_any_existing (now : Int) (eid : Nat) (actor : String)
    (s : FixerState) :
    ((ignoreError now eid actor s).fst = (findError s.store eid).isSome)
      ∧ (findError s.store eid = none → ignoreError now eid actor s = (false, s))
      ∧ (∀ e, findError s.store eid = some e →
          findError (ignoreError now eid actor s).snd.store eid
            = some { e with status := .IGNORED, ignored_at := some now, ignored_by := some actor }
            ∧ (ignoreError now eid actor s).snd.events
              = s.events ++ [{ type := .ERROR_IGNORED
                               payload := [("error_id", .nat eid),
                                           ("ignored_by", .str actor)]
                               source := "error_fixer" }]
            ∧ (ignoreError now eid actor s).snd.currentFix = s.currentFix) := by
  cases h : findError s.store eid with
  | none =>
    refine ⟨by simp [ignoreError, h], fun _ => by simp [ignoreError, h], ?_⟩
    intro e he
    exact absurd he (by simp)
  | some e =>
    refine ⟨by simp [ignoreError, h], by simp, ?_⟩
    intro e2 he2
    obtain rfl := Option.some_inj.mp he2
    have hupd := findError_updateError s.store eid
      (fun x => { x with status := .IGNORED, ignored_at := some now, ignored_by := some actor })
      (fun _ => rfl)
    refine ⟨?_, by simp [ignoreError, h], by simp [ignoreError, h]⟩
    simp only [ignoreError, h]
    rw [hupd, h]
    rfl

/-- C2 witness: the amended claim evaluated on the store holding one
RESOLVED error. -/
theorem ignore_error_any_existing_witness :
    findError (ignoreError 7 0 "admin" resolvedState).snd.store 0
      = some { baseError with
               status := .IGNORED
               resolved_at := some 1
               ignored_at := some 7
               ignored_by := some "admin" } := by
  have h := (ignore_error_any_existing 7 0 "admin" resolvedState).2.2
    { baseError with status := .RESOLVED, resolved_at := some 1 } (by decide)
  exact h.1

/-- The dedup gate of _create_error: a true _is_duplicate_error suppresses
creation entirely. -/
theorem createError_of_duplicate {now : Int} {ty : String} {cat : ErrorCategory}
    {sev : ErrorSeverity} {af : Bool} {msg raw : String} {ctx : List String}
    {s : DetectorState}
    (hdup : isDuplicateError now s.store ty msg (extractModuleName raw) = true) :
    createError now ty cat sev af msg raw ctx s = (s, none) := by
  simp [createError, hdup]

/-- A store member of the same type, recent and non-terminal (and of the
extracted module, when one was extracted) makes _is_duplicate_error
true. -/
theorem isDuplicateError_of_mem {now : Int} {ty msg : String}
    {module : Option String} {store : List ErrorRec} {e : ErrorRec}
    (hmem : e ∈ store) (hty : e.error_type = ty) (ht : e.detected_at > now - 60)
    (hst : e.status = .DETECTED ∨ e.status = .QUEUED ∨ e.status = .FIXING)
    (hmod : ∀ m, module = some m → e.module_name = some m) :
    isDuplicateError now store ty msg module = true := by
  apply List.any_eq_true.mpr
  refine ⟨e, hmem, ?_⟩
  have h1 : (e.error_type == ty) = true := by simp [hty]
  have h2 : decide (e.detected_at > now - 60) = true := by simpa using ht
  have h3 : (e.status == ErrorStatus.DETECTED || e.status == ErrorStatus.QUEUED
      || e.status == ErrorStatus.FIXING) = true := by
    rcases hst with h | h | h <;> simp [h]
  rw [h1, h2, h3]
  cases module with
  | none => rfl
  | some m => simp [hmod m rfl]

/-- When no duplicate is found, _create_error appends exactly one row, with
the given type, the current time, status DETECTED and the extracted
module. -/
theorem createError_creates {now : Int} {ty : String} {cat : ErrorCategory}
    {sev : ErrorSeverity} {af : Bool} {msg raw : String} {ctx : List String}
    {s : DetectorState}
    (hdup : isDuplicateError now s.store ty msg (extractModuleName raw) = false) :
    ∃ err, (createError now ty cat sev af msg raw ctx s).fst.store = s.store ++ [err]
      ∧ err.error_type = ty ∧ err.detected_at = now ∧ err.status = .DETECTED
      ∧ err.module_name = extractModuleName raw := by
  simp only [createError, hdup]
  exact ⟨_, rfl, rfl, rfl, rfl, rfl⟩

/-- C6: creation is suppressed (no record, no event) whenever the store
already holds an Error of the same error_type (and of the same module when
one was extracted from the block) in status DETECTED, QUEUED or FIXING
detected within the last 60 seconds; consequently two blocks with
identical classification processed within 60 seconds of each other yield
exactly one new Error record. -/
theorem dedup_window_suppresses_creation :
    (∀ (now : Int) (ty : String) (cat : ErrorCategory) (sev : ErrorSeverity)
        (af : Bool) (msg raw : String) (ctx : List String) (s : DetectorState)
        (e : ErrorRec),
        e ∈ s.store → e.error_type = ty → e.detected_at > now - 60 →
        (e.status = .DETECTED ∨ e.status = .QUEUED ∨ e.status = .FIXING) →
        (∀ m, extractModuleName raw = some m → e.module_name = some m) →
        createError now ty cat sev af msg raw ctx s = (s, none))
      ∧ (∀ (t1 t2 : Int) (ty : String) (cat : ErrorCategory) (sev : ErrorSeverity)
          (af : Bool) (msg raw : String) (ctx : List String) (s : DetectorState),
          isDuplicateError t1 s.store ty msg (extractModuleName raw) = false →
          t1 > t2 - 60 →
          (createError t1 ty cat sev af msg raw ctx s).fst.store.length
              = s.store.length + 1
            ∧ createError t2 ty cat sev af msg raw ctx
                (createError t1 ty cat sev af msg raw ctx s).fst
              = ((createError t1 ty cat sev af msg raw ctx s).fst, none)) := by
  constructor
  · intro now ty cat sev af msg raw ctx s e hmem hty ht hst hmod
    exact createError_of_duplicate (isDuplicateError_of_mem hmem hty ht hst hmod)
  · intro t1 t2 ty cat sev af msg raw ctx s hdup h60
    obtain ⟨err, hst1, hty1, hdet1, hstat1, hmod1⟩ := createError_creates hdup
    refine ⟨by rw [hst1]; simp, ?_⟩
    apply createError_of_duplicate
    apply isDuplicateError_of_mem (e := err)
    · rw [hst1]
      simp
    · exact hty1
    · rw [hdet1]
      exact h60
    · exact Or.inl hstat1
    · intro m hm
      rw [hmod1]
      exact hm

/-- C6 witness: two identical ImportError creations 30 seconds apart on an
empty store leave exactly one record, the second call being a no-op. -/
theorem dedup_window_suppresses_creation_witness :
    createError 30 "ImportError" .PYTHON .HIGH true "msg" "" []
        (createError 0 "ImportError" .PYTHON .HIGH true "msg" "" [] emptyDetector).fst
      = ((createError 0 "ImportError" .PYTHON .HIGH true "msg" "" [] emptyDetector).fst,
         none) :=
  (dedup_window_suppresses_creation.2 0 30 "ImportError" .PYTHON .HIGH true "msg" ""
    [] emptyDetector (by decide) (by decide)).2

/-- C3 counterexample: with one QUEUED auto-fixable error whose backoff
has not elapsed (one attempt completed at time 0, delay(1) = 60, poll at
time 10) and one older auto-fixable DETECTED error, the poll selects the
QUEUED error, its backoff gate returns early, and the DETECTED error is
not queued — the not-yet-eligible QUEUED error does prevent it. -/
theorem queued_backoff_blocks_detected_cex :
    backoffBlocked defaultRetry 10
        { baseError with status := .QUEUED, fix_attempts := [closedAttempt 1 0] } = true
      ∧ (getNextError blockedQueueState).fst = some 0
      ∧ (findError (pollOnce defaultRetry verifFailInput blockedQueueState).fst.store 1).map
          (fun e => e.status) = some ErrorStatus.DETECTED
      ∧ (pollOnce defaultRetry verifFailInput blockedQueueState).fst = blockedQueueState := by
  refine ⟨by decide, by decide, by decide, by decide⟩

/-- C3 amended: the poll prefers the oldest QUEUED auto-fixable error
regardless of backoff eligibility; the oldest DETECTED auto-fixable error
is queued only when no QUEUED auto-fixable error exists at all; and
processing a selected error whose backoff has not elapsed returns without
any change — so a QUEUED error whose backoff has not yet elapsed does
prevent DETECTED errors from being queued on that poll. -/
theorem selection_prefers_queued_regardless_of_backoff :
    (∀ s : FixerState,
        (∃ e ∈ s.store, e.status = .QUEUED ∧ e.auto_fixable = true) →
        ∃ e, e ∈ s.store ∧ e.status = .QUEUED ∧ e.auto_fixable = true
          ∧ (∀ x ∈ s.store, x.status = .QUEUED → x.auto_fixable = true →
              e.detected_at ≤ x.detected_at)
          ∧ getNextError s = (some e.id, s))
      ∧ (∀ s : FixerState,
          (∀ x ∈ s.store, ¬(x.status = .QUEUED ∧ x.auto_fixable = true)) →
          (∃ e ∈ s.store, e.status = .DETECTED ∧ e.auto_fixable = true) →
          ∃ e, e ∈ s.store ∧ e.status = .DETECTED ∧ e.auto_fixable = true
            ∧ (∀ x ∈ s.store, x.status = .DETECTED → x.auto_fixable = true →
                e.detected_at ≤ x.detected_at)
            ∧ getNextError s
              = (some e.id,
                 { s with
                   store := updateError s.store e.id (fun x => { x with status := .QUEUED }) }))
      ∧ (∀ (cfg : RetryConfig) (tS tE : Int) (agent : AgentResult)
          (verif : VerificationResult) (prompt : String) (eid : Nat)
          (s : FixerState) (e : ErrorRec),
          findError s.store eid = some e →
          e.fix_attempts.length < cfg.max_attempts →
          backoffBlocked cfg tS e = true →
          processError cfg tS tE agent verif prompt eid s = (s, [])) := by
  refine ⟨?_, ?_, ?_⟩
  · intro s hex
    obtain ⟨x, hx, hxq, hxa⟩ := hex
    obtain ⟨e, he⟩ := oldestWhere_isSome
      (fun e => e.status == .QUEUED && e.auto_fixable) s.store
      ⟨x, hx, by simp [hxq, hxa]⟩
    obtain ⟨hmem, hpe, hmin⟩ := oldestWhere_spec _ _ _ he
    refine ⟨e, hmem, ?_, ?_, ?_, ?_⟩
    · have := hpe
      simp only [Bool.and_eq_true, beq_iff_eq] at this
      exact this.1
    · have := hpe
      simp only [Bool.and_eq_true, beq_iff_eq] at this
      exact this.2
    · intro y hy hyq hya
      exact hmin y hy (by simp [hyq, hya])
    · simp only [getNextError, he]
  · intro s hnoq hex
    have hnone : oldestWhere (fun e => e.status == .QUEUED && e.auto_fixable) s.store
        = none := by
      apply (oldestWhere_eq_none_iff _ _).mpr
      intro x hx
      by_cases hq : x.status = .QUEUED
      · have : ¬ x.auto_fixable = true := fun ha => hnoq x hx ⟨hq, ha⟩
        simp [hq, this]
      · simp [hq]
    obtain ⟨x, hx, hxq, hxa⟩ := hex
    obtain ⟨e, he⟩ := oldestWhere_isSome
      (fun e => e.status == .DETECTED && e.auto_fixable) s.store
      ⟨x, hx, by simp [hxq, hxa]⟩
    obtain ⟨hmem, hpe, hmin⟩ := oldestWhere_spec _ _ _ he
    refine ⟨e, hmem, ?_, ?_, ?_, ?_⟩
    · have := hpe
      simp only [Bool.and_eq_true, beq_iff_eq] at this
      exact this.1
    · have := hpe
      simp only [Bool.and_eq_true, beq_iff_eq] at this
      exact this.2
    · intro y hy hyq hya
      exact hmin y hy (by simp [hyq, hya])
    · simp only [getNextError, hnone, he]
  · intro cfg tS tE agent verif prompt eid s e h hlt hb
    exact processError_blocked h hlt hb

/-- C3 witness: the backoff clause of the amended claim evaluated on the
concrete blocked store. -/
theorem selection_prefers_queued_regardless_of_backoff_witness :
    processError defaultRetry 10 11 (.response okResponse) verifFailed "" 0
        blockedQueueState = (blockedQueueState, []) :=
  selection_prefers_queued_regardless_of_backoff.2.2 defaultRetry 10 11
    (.response okResponse) verifFailed "" 0 blockedQueueState
    { baseError with status := .QUEUED, fix_attempts := [closedAttempt 1 0] }
    (by decide) (by decide) (by decide)

/-- C4 counterexample: a QUEUED error with four recorded attempts
(max_attempts = 5) whose fifth attempt fails verification ends the call in
status QUEUED with five recorded attempts — the attempt count has reached
the maximum, yet no transition to FAILED and no FIX_ESCALATED event
happens in that call. -/
theorem failure_requeues_even_at_cap_cex :
    defaultRetry.max_attempts = 5
      ∧ (findError (processError defaultRetry 0 5 (.response okResponse) verifFailed ""
            0 nearCapState).fst.store 0).map (fun x => x.status)
          = some ErrorStatus.QUEUED
      ∧ (findError (processError defaultRetry 0 5 (.response okResponse) verifFailed ""
            0 nearCapState).fst.store 0).map (fun x => x.fix_attempts.length) = some 5
      ∧ (processError defaultRetry 0 5 (.response okResponse) verifFailed ""
            0 nearCapState).fst.events.all
          (fun ev => ev.type != EventType.FIX_ESCALATED) = true := by
  refine ⟨by decide, by decide, by decide, by decide⟩

/-- C4 amended: a fix attempt that ends in failure (timeout, unexpected
exception, failed invocation, or failed verification) always transitions
the Error from FIXING back to QUEUED, whatever the attempt count, and no
FIX_ESCALATED event is emitted in that call; the transition to FAILED with
FIX_ESCALATED instead happens at the start of the next processing of that
error, before any new attempt is created, once the recorded attempt count
has reached the maximum. -/
theorem failure_requeues_and_escalation_is_deferred :
    (∀ (cfg : RetryConfig) (tS tE : Int) (agent : AgentResult)
        (verif : VerificationResult) (prompt : String) (eid : Nat)
        (s : FixerState) (e : ErrorRec),
        findError s.store eid = some e →
        e.fix_attempts.length < cfg.max_attempts →
        backoffBlocked cfg tS e = false →
        failureOutcome agent verif →
        ((findError (processError cfg tS tE agent verif prompt eid s).fst.store eid).map
            (fun x => x.status) = some ErrorStatus.QUEUED)
          ∧ ∃ evs, (processError cfg tS tE agent verif prompt eid s).fst.events
                = s.events
                  ++ evFixStarted eid (e.fix_attempts.length + 1) cfg.max_attempts :: evs
              ∧ ∀ ev ∈ evs, ev.type ≠ EventType.FIX_ESCALATED)
      ∧ (∀ (cfg : RetryConfig) (tS tE : Int) (agent : AgentResult)
          (verif : VerificationResult) (prompt : String) (eid : Nat)
          (s : FixerState) (e : ErrorRec),
          findError s.store eid = some e →
          e.fix_attempts.length ≥ cfg.max_attempts →
          ((findError (processError cfg tS tE agent verif prompt eid s).fst.store eid).map
              (fun x => x.status) = some ErrorStatus.FAILED)
            ∧ ((findError (processError cfg tS tE agent verif prompt eid s).fst.store eid).map
                (fun x => x.fix_attempts) = some e.fix_attempts)
            ∧ (processError cfg tS tE agent verif prompt eid s).fst.events
              = s.events ++ [evFixEscalated eid e.error_type e.fix_attempts.length]) := by
  constructor
  · intro cfg tS tE agent verif prompt eid s e h hlt hb hfail
    rw [processError_eq_run h hlt hb]
    rcases hfail with rfl | rfl | ⟨cr, rfl, hcr⟩
    · constructor
      · simp only [processErrorRun]
        rw [findError_double_update h (by intro x; rfl) (by intro x; rfl)]
        rfl
      · refine ⟨[evFixFailed eid (e.fix_attempts.length + 1) "timeout"],
          by simp [processErrorRun], ?_⟩
        intro ev hev
        rw [List.mem_singleton.mp hev]
        simp [evFixFailed]
    · constructor
      · simp only [processErrorRun]
        rw [findError_double_update h (by intro x; rfl) (by intro x; rfl)]
        rfl
      · exact ⟨[], by simp [processErrorRun], by intro ev hev; exact absurd hev (by simp)⟩
    · by_cases hs : cr.success
      · have hv : verif.fix_successful = false := by
          rcases hcr with hc | hv
          · rw [hs] at hc
            exact absurd hc (by simp)
          · exact hv
        constructor
        · simp only [processErrorRun, hs, hv]
          rw [if_pos trivial, if_neg (by simp)]
          rw [findError_double_update h (by intro x; rfl) (by intro x; rfl)]
          rfl
        · refine ⟨[evFixFailedVerification eid (e.fix_attempts.length + 1)
              verif.new_errors_introduced], ?_, ?_⟩
          · simp [processErrorRun, hs, hv]
          · intro ev hev
            rw [List.mem_singleton.mp hev]
            simp [evFixFailedVerification]
      · have hs2 : cr.success = false := by simpa using hs
        constructor
        · simp only [processErrorRun, hs2]
          rw [if_neg (by simp)]
          rw [findError_double_update h (by intro x; rfl) (by intro x; rfl)]
          rfl
        · refine ⟨[evFixFailed eid (e.fix_attempts.length + 1)
              (reasonOr cr.error_message "claude_invocation_failed")], ?_, ?_⟩
          · simp [processErrorRun, hs2]
          · intro ev hev
            rw [List.mem_singleton.mp hev]
            simp [evFixFailed]
  · intro cfg tS tE agent verif prompt eid s e h hge
    rw [processError_escalates h hge]
    have hupd := findError_updateError s.store eid
      (fun x => { x with status := .FAILED }) (fun _ => rfl)
    constructor
    · show (findError (updateError s.store eid fun x => { x with status := .FAILED })
          eid).map (fun x => x.status) = some ErrorStatus.FAILED
      rw [hupd, h]
      rfl
    constructor
    · show (findError (updateError s.store eid fun x => { x with status := .FAILED })
          eid).map (fun x => x.fix_attempts) = some e.fix_attempts
      rw [hupd, h]
      rfl
    · rfl

/-- C9: on agent timeout the in-flight attempt is fully finalized: it is
closed with status TIMEOUT and a completed_at stamp, the Error returns to
QUEUED, FIX_FAILED is emitted with reason "timeout", the currently-fixing
marker is cleared, and no attempt of the Error is left IN_PROGRESS. -/
theorem timeout_finalizes_attempt (cfg : RetryConfig) (tS tE : Int)
    (verif : VerificationResult) (prompt : String) (eid : Nat) (s : FixerState)
    (e : ErrorRec)
    (h : findError s.store eid = some e)
    (hlt : e.fix_attempts.length < cfg.max_attempts)
    (hb : backoffBlocked cfg tS e = false)
    (hprog : inProgressCount e = 0) :
    findError (processError cfg tS tE .timeout verif prompt eid s).fst.store eid
        = some { e with
                 status := .QUEUED
                 fix_attempts := e.fix_attempts
                   ++ [{ freshAttempt eid (e.fix_attempts.length + 1) tS with
                         status := .TIMEOUT, completed_at := some tE }] }
      ∧ (processError cfg tS tE .timeout verif prompt eid s).fst.events
        = s.events ++ [evFixStarted eid (e.fix_attempts.length + 1) cfg.max_attempts,
                       evFixFailed eid (e.fix_attempts.length + 1) "timeout"]
      ∧ (processError cfg tS tE .timeout verif prompt eid s).fst.currentFix = none
      ∧ (∀ e2, findError (processError cfg tS tE .timeout verif prompt eid s).fst.store
            eid = some e2 → inProgressCount e2 = 0) := by
  rw [processError_eq_run h hlt hb]
  have hfind : findError (processErrorRun cfg tS tE .timeout verif prompt eid s e).fst.store
      eid = some { e with
                   status := .QUEUED
                   fix_attempts := e.fix_attempts
                     ++ [{ freshAttempt eid (e.fix_attempts.length + 1) tS with
                           status := .TIMEOUT, completed_at := some tE }] } := by
    simp only [processErrorRun]
    rw [findError_double_update h (by intro x; rfl) (by intro x; rfl)]
    simp [List.dropLast_concat]
  refine ⟨hfind, by simp [processErrorRun], rfl, ?_⟩
  intro e2 he2
  rw [hfind, Option.some_inj] at he2
  subst he2
  simp only [inProgressCount, List.filter_append, List.length_append]
  rw [show (List.filter (fun a => a.status == FixAttemptStatus.IN_PROGRESS)
      e.fix_attempts).length = 0 from hprog]
  rfl

/-- C9 witness: the theorem evaluated on the four-attempt store at time 0
with an agent timeout. -/
theorem timeout_finalizes_attempt_witness :
    (processError defaultRetry 0 5 .timeout verifFailed "" 0 nearCapState).fst.currentFix
      = none :=
  (timeout_finalizes_attempt defaultRetry 0 5 verifFailed "" 0 nearCapState
    { baseError with
      status := .QUEUED
      fix_attempts := [closedAttempt 1 (-10000), closedAttempt 2 (-9000),
                       closedAttempt 3 (-8000), closedAttempt 4 (-7000)] }
    (by decide) (by decide) (by decide) (by decide)).2.2.1

/-- C10: an unexpected exception inside a fix attempt closes the attempt
as FAILED with a completed_at stamp, returns the Error to QUEUED and
clears the currently-fixing marker, but publishes nothing after the
FIX_STARTED that opened the attempt — no FIX_FAILED nor any other outcome
event reaches the bus for that attempt. -/
theorem exception_closes_attempt_without_event (cfg : RetryConfig) (tS tE : Int)
    (verif : VerificationResult) (prompt : String) (eid : Nat) (s : FixerState)
    (e : ErrorRec)
    (h : findError s.store eid = some e)
    (hlt : e.fix_attempts.length < cfg.max_attempts)
    (hb : backoffBlocked cfg tS e = false) :
    findError (processError cfg tS tE .exn verif prompt eid s).fst.store eid
        = some { e with
                 status := .QUEUED
                 fix_attempts := e.fix_attempts
                   ++ [{ freshAttempt eid (e.fix_attempts.length + 1) tS with
                         status := .FAILED, completed_at := some tE }] }
      ∧ (processError cfg tS tE .exn verif prompt eid s).fst.events
        = s.events ++ [evFixStarted eid (e.fix_attempts.length + 1) cfg.max_attempts]
      ∧ (processError cfg tS tE .exn verif prompt eid s).fst.currentFix = none := by
  rw [processError_eq_run h hlt hb]
  refine ⟨?_, by simp [processErrorRun], rfl⟩
  simp only [processErrorRun]
  rw [findError_double_update h (by intro x; rfl) (by intro x; rfl)]
  simp [List.dropLast_concat]

/-- C10 witness: the theorem evaluated on the four-attempt store at time 0
with an unexpected exception. -/
theorem exception_closes_attempt_without_event_witness :
    (processError defaultRetry 0 5 .exn verifFailed "" 0 nearCapState).fst.events
      = nearCapState.events ++ [evFixStarted 0 5 5] :=
  (exception_closes_attempt_without_event defaultRetry 0 5 verifFailed "" 0
    nearCapState
    { baseError with
      status := .QUEUED
      fix_attempts := [closedAttempt 1 (-10000), closedAttempt 2 (-9000),
                       closedAttempt 3 (-8000), closedAttempt 4 (-7000)] }
    (by decide) (by decide) (by decide)).2.1

/-- C8: starting from a store whose errors have gap-free attempt numbers
1..k, no IN_PROGRESS attempt and distinct ids, any sequence of
orchestrator polls keeps every committed snapshot with gap-free numbers
1..k and at most one IN_PROGRESS attempt per Error (the new attempt is
always numbered prior count + 1), and the store between polls has every
attempt closed again. -/
theorem fixAttempts_gapfree_single_inprogress (cfg : RetryConfig)
    (inputs : List PollInput) (s0 : FixerState)
    (hq : QuiescentStore s0.store) (hu : UniqueIds s0.store) :
    QuiescentStore (runPolls cfg inputs s0).fst.store
      ∧ ∀ st ∈ (runPolls cfg inputs s0).snd, StoreInv st := by
  induction inputs generalizing s0 with
  | nil => exact ⟨hq, by simp [runPolls]⟩
  | cons inp rest ih =>
    obtain ⟨hq1, hu1, hsnap1⟩ := pollOnce_inv cfg inp s0 hq hu
    obtain ⟨hq2, hsnap2⟩ := ih (pollOnce cfg inp s0).fst hq1 hu1
    refine ⟨hq2, ?_⟩
    intro st hst
    simp only [runPolls, List.mem_append] at hst
    rcases hst with hst1 | hst2
    · exact hsnap1 st hst1
    · exact hsnap2 st hst2

/-- C8 witness: the invariant evaluated over one poll of the concrete
four-attempt store. -/
theorem fixAttempts_gapfree_single_inprogress_witness :
    QuiescentStore (runPolls defaultRetry [verifFailInput] nearCapState).fst.store :=
  (fixAttempts_gapfree_single_inprogress defaultRetry [verifFailInput] nearCapState
    (by unfold QuiescentStore attemptNumbersOk inProgressCount; decide)
    (by unfold UniqueIds; decide)).1

/-- C4 witness: the escalation clause evaluated on a store whose only
error already carries five attempts (the default cap). -/
theorem failure_requeues_and_escalation_is_deferred_witness :
    (findError (processError defaultRetry 0 5 (.response okResponse) verifFailed ""
        0 atCapState).fst.store 0).map (fun x => x.status)
      = some ErrorStatus.FAILED :=
  (failure_requeues_and_escalation_is_deferred.2 defaultRetry 0 5
    (.response okResponse) verifFailed "" 0 atCapState
    { baseError with
      status := .QUEUED
      fix_attempts := [closedAttempt 1 (-10000), closedAttempt 2 (-9000),
                       closedAttempt 3 (-8000), closedAttempt 4 (-7000),
                       closedAttempt 5 (-6000)] }
    (by decide) (by decide)).1

end CCW
